import Mathlib

/-!
# Frequency-plan registry and region inference (`core/band/band.go`)

A shallow embedding of the Go package `band`: the frequency-plan value object and
its accessors, the per-region builder `Get`, the one-time table construction
`InitializeTables` and the region guesser `Guess`.

Modelling conventions.

* Go `int` is a 64-bit signed integer and `uint64` a 64-bit unsigned one.  Values are
  kept in `Int` / `Nat`; the arithmetic of the sub-band loop and the conversion
  `int(frequency)` wrap explicitly through `wrapInt64`.
* A Go `map` is an `Option` of an association list with unique keys: `none` is the
  nil (never allocated) map, `some []` the map returned by `make`.
* The package-level variables `frequencyPlans`, `channels` and `initializeOnce` are
  the three fields of `State`; functions that read them take them as arguments.
* The band library (`lora.GetConfig`) and the configuration store (`viper.GetInt`)
  are external collaborators; they are the two fields of `Env`.
* A Go function returning `(value, error)` returns a pair whose second component is
  `none` for a nil error: `Get` assigns its named results step by step and returns
  the (partly built) plan together with the error, and `InitializeTables` stores that
  plan whatever the error was.
-/

namespace TTNBand

/-! ## Machine integers and maps -/

/-- Two's-complement wrap of an integer to the range of the 64-bit Go `int`. -/
def wrapInt64 (x : Int) : Int := (x + 2 ^ 63) % 2 ^ 64 - 2 ^ 63

/-- A Go map: `none` is the nil map, `some l` an allocated map whose entries are
the pairs of `l` (keys are kept unique by `mapSet`). -/
abbrev GoMap (κ ν : Type) := Option (List (κ × ν))

/-- First value stored under key `k` in an association list. -/
def assocGet {κ ν : Type} [DecidableEq κ] : List (κ × ν) → κ → Option ν
  | [], _ => none
  | (k', v) :: rest, k => if k' = k then some v else assocGet rest k

/-- The two-result map read `v, ok := m[k]`; reading a nil map finds nothing. -/
def mapGet {κ ν : Type} [DecidableEq κ] (m : GoMap κ ν) (k : κ) : Option ν :=
  match m with
  | none => none
  | some l => assocGet l k

/-- The map assignment `m[k] = v`.  Assigning into a nil map panics in Go; the only
writer of this package, `InitializeTables`, allocates both maps before it writes. -/
def mapSet {κ ν : Type} [DecidableEq κ] (m : GoMap κ ν) (k : κ) (v : ν) : GoMap κ ν :=
  match m with
  | none => none
  | some l => some ((k, v) :: l.filter (fun p => decide (p.1 ≠ k)))

/-! ## Errors -/

/-- The error values this package returns or passes on. -/
inductive Error where
  /-- An `errors.New(msg)` of the `ttn/utils/errors` package. -/
  | New (msg : String)
  /-- An `errors.NewErrInvalidArgument(argument, reason)`. -/
  | ErrInvalidArgument (argument reason : String)
  /-- An error produced by the band library. -/
  | library (msg : String)
  deriving DecidableEq, Repr

/-! ## The band configuration (external library types) -/

/-- Modulation of a data rate (`lora.Modulation`). -/
inductive Modulation where
  | LoRaModulation
  | FSKModulation
  deriving DecidableEq, Repr

/-- A data-rate definition of the band library (`lora.DataRate`). -/
structure DataRate where
  Modulation : Modulation
  SpreadFactor : Int
  Bandwidth : Int
  BitRate : Int
  deriving DecidableEq, Repr

/-- A radio channel (`lora.Channel`): centre frequency in Hz, the data-rate indices
permitted on it, and the flag the library sets when the channel is disabled. -/
structure Channel where
  Frequency : Int
  DataRates : List Int
  deactivated : Bool := false
  deriving DecidableEq, Repr

/-- The band configuration (`lora.Band`), reduced to the fields this package reads
or writes. -/
structure Band where
  DataRates : List DataRate
  TXPower : List Int
  UplinkChannels : List Channel
  DownlinkChannels : List Channel
  RX2DataRate : Int
  deriving DecidableEq, Repr

/-- The Go zero value of `lora.Band`. -/
def Band.zero : Band :=
  { DataRates := [], TXPower := [], UplinkChannels := [], DownlinkChannels := [],
    RX2DataRate := 0 }

/-- Modelled from the spec: the band library's mutation operation "disable a given
uplink channel by index" (`lora.Band.DisableUplinkChannel`, not part of this
repository).  An index past the end of the uplink list is reported as an error and
leaves the band unchanged; otherwise the channel at that index is flagged as
deactivated and every other channel is left as it was. -/
def Band.DisableUplinkChannel (b : Band) (i : Nat) : Band × Option Error :=
  if b.UplinkChannels.length ≤ i then
    (b, some (Error.library "lorawan/band: channel does not exist"))
  else
    ({ b with UplinkChannels :=
        b.UplinkChannels.modify (fun ch => { ch with deactivated := true }) i }, none)

/-- Names of the band library (`lora.Name`) used by this package. -/
inductive BandName where
  | EU_863_870 | US_902_928 | CN_779_787 | EU_433 | AU_915_928 | CN_470_510
  | AS_923 | KR_920_923 | IN_865_867 | RU_864_870
  deriving DecidableEq, Repr

/-- Dwell-time limits (`lorawan.DwellTime`). -/
inductive DwellTime where
  | DwellTimeNoLimit
  | DwellTime400ms
  deriving DecidableEq, Repr

/-- The external collaborators of the package: the band library's `GetConfig`
(Band Configuration Source) and the configuration store's `GetInt`. -/
structure Env where
  GetConfig : BandName → Bool → DwellTime → Band × Option Error
  GetInt : String → Int

/-! ## The frequency plan -/

/-- ADR bounds (`ADRConfig`). -/
structure ADRConfig where
  MinDataRate : Int
  MaxDataRate : Int
  MinTXPower : Int
  MaxTXPower : Int
  StepTXPower : Int
  deriving DecidableEq, Repr

/-- The struct `FrequencyPlan`: the embedded `lora.Band` (its fields are promoted),
an optional ADR policy and an optional CFList (`*lorawan.CFList`, five `uint32`
slots). -/
structure FrequencyPlan extends Band where
  ADR : Option ADRConfig
  CFList : Option (List Nat)
  deriving DecidableEq, Repr

/-- The Go zero value of `FrequencyPlan`. -/
def FrequencyPlan.zero : FrequencyPlan :=
  { toBand := Band.zero, ADR := none, CFList := none }

/-- The loop of `GetTxPowerIndexFor` started at index `i`: the index of the first
entry equal to `txPower`, if any. -/
def txPowerScan (txPower : Int) : List Int → Nat → Option Nat
  | [], _ => none
  | power :: rest, i => if power = txPower then some i else txPowerScan txPower rest (i + 1)

/-- `FrequencyPlan.GetTxPowerIndexFor`. -/
def FrequencyPlan.GetTxPowerIndexFor (f : FrequencyPlan) (txPower : Int) : Int × Option Error :=
  match txPowerScan txPower f.TXPower 0 with
  | some i => ((i : Int), none)
  | none => (0, some (Error.New "core/band: the given tx-power does not exist"))

/-! ## Region names -/

/-- The protobuf enumeration `pb_lorawan.FrequencyPlan`. -/
inductive PbFrequencyPlan where
  | EU_863_870 | US_902_928 | CN_779_787 | EU_433 | AU_915_928 | CN_470_510
  | AS_923 | AS_920_923 | AS_923_925 | KR_920_923 | IN_865_867 | RU_864_870
  deriving DecidableEq, Repr

/-- The `String()` method of the protobuf enumeration: the canonical region name. -/
def PbFrequencyPlan.String : PbFrequencyPlan → String
  | .EU_863_870 => "EU_863_870"
  | .US_902_928 => "US_902_928"
  | .CN_779_787 => "CN_779_787"
  | .EU_433 => "EU_433"
  | .AU_915_928 => "AU_915_928"
  | .CN_470_510 => "CN_470_510"
  | .AS_923 => "AS_923"
  | .AS_920_923 => "AS_920_923"
  | .AS_923_925 => "AS_923_925"
  | .KR_920_923 => "KR_920_923"
  | .IN_865_867 => "IN_865_867"
  | .RU_864_870 => "RU_864_870"

/-! ## Guess -/

/-- The function `Guess`: the region for an uplink frequency.  `channels` is the
package variable of that name; `frequency` is a `uint64`. -/
def Guess (channels : GoMap Int String) (frequency : Nat) : String :=
  if frequency = 923200000 ∨ frequency = 923400000 then
    PbFrequencyPlan.AS_923.String
  else if frequency = 922100000 ∨ frequency = 922300000 ∨ frequency = 922500000 then
    PbFrequencyPlan.KR_920_923.String
  else
    match mapGet channels (wrapInt64 (frequency : Int)) with
    | some region => region
    | none => ""

/-! ## Get: the per-region builder -/

/-- The TTN uplink channel with the given frequency and data rates. -/
def mkChannel (frequency : Int) (dataRates : List Int) : Channel :=
  { Frequency := frequency, DataRates := dataRates, deactivated := false }

/-- The condition of the `if` statement in the sub-band loop of `Get` (the same in
the US_902_928 and the AU_915_928 case):
`(channel < fsb*8 || channel >= (fsb+1)*8) && channel != fsb+64`.  The products and
sums are those of the Go `int`. -/
def fsbDisables (fsb : Int) (channel : Nat) : Bool :=
  decide (((channel : Int) < wrapInt64 (fsb * 8) ∨
            (channel : Int) ≥ wrapInt64 (wrapInt64 (fsb + 1) * 8))
          ∧ (channel : Int) ≠ wrapInt64 (fsb + 64))

/-- One iteration of the sub-band loop of `Get`: channel `channel` is disabled when
the condition holds; the error of `DisableUplinkChannel` is dropped, as in the
source. -/
def fsbStep (fsb : Int) (b : Band) (channel : Nat) : Band :=
  if fsbDisables fsb channel then (b.DisableUplinkChannel channel).1 else b

/-- The loop `for channel := 0; channel < 72; channel++` of `Get`. -/
def fsbLoop (fsb : Int) (b : Band) : Band :=
  (List.range 72).foldl (fsbStep fsb) b

/-- The `switch region` statement of `Get` (lines 80-195): the named results
`frequencyPlan` and `err` after the case for `region` has run.  Every case assigns
the band and the error returned by the band library and then applies its overlay,
whatever the error was. -/
def buildPlan (env : Env) (region : String) : FrequencyPlan × Option Error :=
  if region = PbFrequencyPlan.EU_863_870.String then
    let r := env.GetConfig BandName.EU_863_870 false DwellTime.DwellTimeNoLimit
    let uplink := [
      mkChannel 868100000 [0, 1, 2, 3, 4, 5],
      mkChannel 868300000 [0, 1, 2, 3, 4, 5, 6],
      mkChannel 868500000 [0, 1, 2, 3, 4, 5],
      mkChannel 867100000 [0, 1, 2, 3, 4, 5],
      mkChannel 867300000 [0, 1, 2, 3, 4, 5],
      mkChannel 867500000 [0, 1, 2, 3, 4, 5],
      mkChannel 867700000 [0, 1, 2, 3, 4, 5],
      mkChannel 867900000 [0, 1, 2, 3, 4, 5],
      mkChannel 868800000 [7]]
    ({ toBand := { r.1 with UplinkChannels := uplink, DownlinkChannels := uplink,
                            RX2DataRate := env.GetInt "eu-rx2-dr" },
       ADR := some { MinDataRate := 0, MaxDataRate := 5, MinTXPower := 2, MaxTXPower := 14,
                     StepTXPower := 3 },
       CFList := some [867100000, 867300000, 867500000, 867700000, 867900000] }, r.2)
  else if region = PbFrequencyPlan.US_902_928.String then
    let r := env.GetConfig BandName.US_902_928 false DwellTime.DwellTime400ms
    let fsb := env.GetInt "us-fsb"
    ({ toBand := fsbLoop fsb r.1,
       ADR := some { MinDataRate := 0, MaxDataRate := 3, MinTXPower := 10, MaxTXPower := 20,
                     StepTXPower := 2 },
       CFList := none }, r.2)
  else if region = PbFrequencyPlan.CN_779_787.String then
    let r := env.GetConfig BandName.CN_779_787 false DwellTime.DwellTimeNoLimit
    ({ toBand := r.1, ADR := none, CFList := none }, r.2)
  else if region = PbFrequencyPlan.EU_433.String then
    let r := env.GetConfig BandName.EU_433 false DwellTime.DwellTimeNoLimit
    ({ toBand := r.1, ADR := none, CFList := none }, r.2)
  else if region = PbFrequencyPlan.AU_915_928.String then
    let r := env.GetConfig BandName.AU_915_928 false DwellTime.DwellTime400ms
    let fsb := env.GetInt "au-fsb"
    ({ toBand := fsbLoop fsb r.1,
       ADR := some { MinDataRate := 0, MaxDataRate := 5, MinTXPower := 10, MaxTXPower := 20,
                     StepTXPower := 2 },
       CFList := none }, r.2)
  else if region = PbFrequencyPlan.CN_470_510.String then
    let r := env.GetConfig BandName.CN_470_510 false DwellTime.DwellTimeNoLimit
    ({ toBand := r.1, ADR := none, CFList := none }, r.2)
  else if region = PbFrequencyPlan.AS_923.String then
    let r := env.GetConfig BandName.AS_923 false DwellTime.DwellTime400ms
    ({ toBand := r.1,
       ADR := some { MinDataRate := 0, MaxDataRate := 5, MinTXPower := 2, MaxTXPower := 14,
                     StepTXPower := 2 },
       CFList := none }, r.2)
  else if region = PbFrequencyPlan.AS_920_923.String then
    let r := env.GetConfig BandName.AS_923 false DwellTime.DwellTime400ms
    let uplink := [
      mkChannel 923200000 [0, 1, 2, 3, 4, 5],
      mkChannel 923400000 [0, 1, 2, 3, 4, 5],
      mkChannel 922200000 [0, 1, 2, 3, 4, 5],
      mkChannel 922400000 [0, 1, 2, 3, 4, 5],
      mkChannel 922600000 [0, 1, 2, 3, 4, 5],
      mkChannel 922800000 [0, 1, 2, 3, 4, 5],
      mkChannel 923000000 [0, 1, 2, 3, 4, 5],
      mkChannel 922000000 [0, 1, 2, 3, 4, 5],
      mkChannel 922100000 [6],
      mkChannel 921800000 [7]]
    ({ toBand := { r.1 with UplinkChannels := uplink, DownlinkChannels := uplink },
       ADR := some { MinDataRate := 0, MaxDataRate := 5, MinTXPower := 2, MaxTXPower := 14,
                     StepTXPower := 2 },
       CFList := some [922200000, 922400000, 922600000, 922800000, 923000000] }, r.2)
  else if region = PbFrequencyPlan.AS_923_925.String then
    let r := env.GetConfig BandName.AS_923 false DwellTime.DwellTime400ms
    let uplink := [
      mkChannel 923200000 [0, 1, 2, 3, 4, 5],
      mkChannel 923400000 [0, 1, 2, 3, 4, 5],
      mkChannel 923600000 [0, 1, 2, 3, 4, 5],
      mkChannel 923800000 [0, 1, 2, 3, 4, 5],
      mkChannel 924000000 [0, 1, 2, 3, 4, 5],
      mkChannel 924200000 [0, 1, 2, 3, 4, 5],
      mkChannel 924400000 [0, 1, 2, 3, 4, 5],
      mkChannel 924600000 [0, 1, 2, 3, 4, 5],
      mkChannel 924500000 [6],
      mkChannel 924800000 [7]]
    ({ toBand := { r.1 with UplinkChannels := uplink, DownlinkChannels := uplink },
       ADR := some { MinDataRate := 0, MaxDataRate := 5, MinTXPower := 2, MaxTXPower := 14,
                     StepTXPower := 2 },
       CFList := some [923600000, 923800000, 924000000, 924200000, 924400000] }, r.2)
  else if region = PbFrequencyPlan.KR_920_923.String then
    let r := env.GetConfig BandName.KR_920_923 false DwellTime.DwellTimeNoLimit
    let uplink := [
      mkChannel 922100000 [0, 1, 2, 3, 4, 5],
      mkChannel 922300000 [0, 1, 2, 3, 4, 5],
      mkChannel 922500000 [0, 1, 2, 3, 4, 5],
      mkChannel 922700000 [0, 1, 2, 3, 4, 5],
      mkChannel 922900000 [0, 1, 2, 3, 4, 5],
      mkChannel 923100000 [0, 1, 2, 3, 4, 5],
      mkChannel 923300000 [0, 1, 2, 3, 4, 5]]
    ({ toBand := { r.1 with UplinkChannels := uplink, DownlinkChannels := uplink },
       ADR := none,
       CFList := some [922700000, 922900000, 923100000, 923300000, 0] }, r.2)
  else if region = PbFrequencyPlan.IN_865_867.String then
    let r := env.GetConfig BandName.IN_865_867 false DwellTime.DwellTimeNoLimit
    ({ toBand := r.1, ADR := none, CFList := none }, r.2)
  else if region = PbFrequencyPlan.RU_864_870.String then
    let r := env.GetConfig BandName.RU_864_870 false DwellTime.DwellTimeNoLimit
    let uplink := [
      mkChannel 868900000 [0, 1, 2, 3, 4, 5],
      mkChannel 869100000 [0, 1, 2, 3, 4, 5],
      mkChannel 864100000 [0, 1, 2, 3, 4, 5],
      mkChannel 864300000 [0, 1, 2, 3, 4, 5],
      mkChannel 864500000 [0, 1, 2, 3, 4, 5],
      mkChannel 864700000 [0, 1, 2, 3, 4, 5],
      mkChannel 864900000 [0, 1, 2, 3, 4, 5]]
    ({ toBand := { r.1 with UplinkChannels := uplink, DownlinkChannels := uplink },
       ADR := some { MinDataRate := 0, MaxDataRate := 5, MinTXPower := 2, MaxTXPower := 14,
                     StepTXPower := 3 },
       CFList := some [864100000, 864300000, 864500000, 864700000, 864900000] }, r.2)
  else
    (FrequencyPlan.zero, some (Error.ErrInvalidArgument "Frequency Band" "unknown"))

/-- The function `Get`: the plan stored in `frequencyPlans` under `region` when there
is one, and otherwise the result of the `switch` statement. -/
def Get (env : Env) (frequencyPlans : GoMap String FrequencyPlan) (region : String) :
    FrequencyPlan × Option Error :=
  match mapGet frequencyPlans region with
  | some fp => (fp, none)
  | none => buildPlan env region

/-! ## InitializeTables -/

/-- The package-level variables `frequencyPlans`, `channels` and the state of the
`sync.Once` value `initializeOnce` (`true` once its function has run). -/
structure State where
  frequencyPlans : GoMap String FrequencyPlan
  channels : GoMap Int String
  initializeOnce : Bool

/-- The state at program start: both maps nil, the `sync.Once` not yet used. -/
def State.initial : State :=
  { frequencyPlans := none, channels := none, initializeOnce := false }

/-- The declared order of the regions in `InitializeTables`. -/
def regionOrder : List PbFrequencyPlan :=
  [PbFrequencyPlan.EU_863_870, PbFrequencyPlan.IN_865_867, PbFrequencyPlan.US_902_928,
   PbFrequencyPlan.CN_779_787, PbFrequencyPlan.EU_433, PbFrequencyPlan.AS_923,
   PbFrequencyPlan.AS_920_923, PbFrequencyPlan.AS_923_925, PbFrequencyPlan.KR_920_923,
   PbFrequencyPlan.AU_915_928, PbFrequencyPlan.CN_470_510, PbFrequencyPlan.RU_864_870]

/-- The body of the inner loop of `InitializeTables` for one uplink channel `ch` of
`region`: a channel with more than one data rate is entered in `channels` unless its
frequency is already a key. -/
def indexChannel (region : String) (channels : GoMap Int String) (ch : Channel) :
    GoMap Int String :=
  if ch.DataRates.length > 1 then
    match mapGet channels ch.Frequency with
    | some _ => channels
    | none => mapSet channels ch.Frequency region
  else channels

/-- The body of the outer loop of `InitializeTables` for one region `r`:
`frequencyPlans[region], _ = Get(region)` followed by the loop over the uplink
channels of `frequencyPlans[region]` (the zero plan when the key is missing). -/
def initRegion (env : Env) (s : State) (r : PbFrequencyPlan) : State :=
  let region := r.String
  let frequencyPlans := mapSet s.frequencyPlans region (Get env s.frequencyPlans region).1
  let stored := (mapGet frequencyPlans region).getD FrequencyPlan.zero
  { s with
    frequencyPlans := frequencyPlans
    channels := stored.UplinkChannels.foldl (indexChannel region) s.channels }

/-- The function `InitializeTables`: when the `sync.Once` has already run nothing
happens; otherwise both maps are allocated afresh and filled region by region. -/
def InitializeTables (env : Env) (s : State) : State :=
  if s.initializeOnce then s
  else
    regionOrder.foldl (initRegion env)
      { frequencyPlans := some [], channels := some [], initializeOnce := true }

/-- The states the package variables can be in: the start state, and any state
obtained from a reachable one by a call of `InitializeTables` (under whatever the
external collaborators return at that time).  `Get`, `Guess` and the plan accessors
only read the variables. -/
inductive Reachable : State → Prop where
  | start : Reachable State.initial
  | init (env : Env) (s : State) : Reachable s → Reachable (InitializeTables env s)

/-! ## Notions used in the statements -/

/-- The plan has an uplink channel with frequency `f`. -/
def hasChannel (fp : FrequencyPlan) (f : Int) : Bool :=
  fp.UplinkChannels.any (fun ch => decide (ch.Frequency = f))

/-- The channel list has a channel with frequency `f` that permits more than one data
rate. -/
def multiRateAt (chs : List Channel) (f : Int) : Bool :=
  chs.any (fun ch => decide (ch.Frequency = f) && decide (1 < ch.DataRates.length))

/-- The plan has an uplink channel with frequency `f` that permits more than one
data rate. -/
def hasMultiRate (fp : FrequencyPlan) (f : Int) : Bool :=
  multiRateAt fp.UplinkChannels f

/-- The plan stored in the registry under the name of region `r` (the zero plan when
there is none). -/
def storedPlan (s : State) (r : PbFrequencyPlan) : FrequencyPlan :=
  (mapGet s.frequencyPlans r.String).getD FrequencyPlan.zero

/-- The first region of the list `rs` for which the `switch` statement of `Get`
yields a plan with a multi-rate uplink channel of frequency `f`. -/
def firstClaimant (env : Env) (rs : List PbFrequencyPlan) (f : Int) : Option PbFrequencyPlan :=
  rs.find? (fun r => hasMultiRate (buildPlan env r.String).1 f)

/-- Indices of the uplink channels of a band that are not deactivated. -/
def enabledUplinkIndices (b : Band) : List Nat :=
  (List.range b.UplinkChannels.length).filter
    (fun i => (b.UplinkChannels[i]?).any (fun ch => !ch.deactivated))

/-- Indices of the uplink channels of a band that are deactivated. -/
def disabledUplinkIndices (b : Band) : List Nat :=
  (List.range b.UplinkChannels.length).filter
    (fun i => (b.UplinkChannels[i]?).any (fun ch => ch.deactivated))

/-- The condition under which the sub-band rule of the specification disables
channel `c` for selector `S`: outside the block `[8*S, 8*S+8)` and different from
`64+S`. -/
def outsideSubBand (S : Int) (c : Nat) : Bool :=
  decide (((c : Int) < 8 * S ∨ 8 * S + 8 ≤ (c : Int)) ∧ (c : Int) ≠ 64 + S)

/-! ## A sample environment for concrete evaluation -/

/-- The defaults registered by the package's `init` function: `eu-rx2-dr` is 3,
`us-fsb` and `au-fsb` are 1; any other key reads as 0. -/
def defaultGetInt (key : String) : Int :=
  if key = "eu-rx2-dr" then 3
  else if key = "us-fsb" then 1
  else if key = "au-fsb" then 1
  else 0

/-- Channels `start, start + step, ...` (`n` of them), all with the same data rates. -/
def channelRun (start step : Int) (n : Nat) (dataRates : List Int) : List Channel :=
  (List.range n).map (fun i => mkChannel (start + step * (i : Int)) dataRates)

/-- A sample band with the given channel lists and a small LoRa data-rate and
TX-power table. -/
def sampleBandOf (uplink downlink : List Channel) : Band :=
  { DataRates := [
      { Modulation := Modulation.LoRaModulation, SpreadFactor := 12, Bandwidth := 125, BitRate := 0 },
      { Modulation := Modulation.LoRaModulation, SpreadFactor := 11, Bandwidth := 125, BitRate := 0 },
      { Modulation := Modulation.LoRaModulation, SpreadFactor := 10, Bandwidth := 125, BitRate := 0 },
      { Modulation := Modulation.LoRaModulation, SpreadFactor := 9, Bandwidth := 125, BitRate := 0 },
      { Modulation := Modulation.LoRaModulation, SpreadFactor := 8, Bandwidth := 125, BitRate := 0 },
      { Modulation := Modulation.LoRaModulation, SpreadFactor := 7, Bandwidth := 125, BitRate := 0 }],
    TXPower := [20, 14, 11, 8, 5, 2],
    UplinkChannels := uplink,
    DownlinkChannels := downlink,
    RX2DataRate := 0 }

/-- A sample Band Configuration Source: for every band name the default channels of
the LoRaWAN regional parameters, and no error. -/
def sampleGetConfig (name : BandName) (_repeaterCompatible : Bool) (_dt : DwellTime) :
    Band × Option Error :=
  match name with
  | BandName.EU_863_870 =>
      let up := [mkChannel 868100000 [0, 1, 2, 3, 4, 5], mkChannel 868300000 [0, 1, 2, 3, 4, 5],
                 mkChannel 868500000 [0, 1, 2, 3, 4, 5]]
      (sampleBandOf up up, none)
  | BandName.US_902_928 =>
      (sampleBandOf
        (channelRun 902300000 200000 64 [0, 1, 2, 3] ++ channelRun 903000000 1600000 8 [4])
        (channelRun 923300000 600000 8 [10, 11, 12, 13]), none)
  | BandName.CN_779_787 =>
      let up := channelRun 779500000 200000 3 [0, 1, 2, 3, 4, 5]
      (sampleBandOf up up, none)
  | BandName.EU_433 =>
      let up := channelRun 433175000 200000 3 [0, 1, 2, 3, 4, 5]
      (sampleBandOf up up, none)
  | BandName.AU_915_928 =>
      (sampleBandOf
        (channelRun 915200000 200000 64 [0, 1, 2, 3] ++ channelRun 915900000 1600000 8 [4])
        (channelRun 923300000 600000 8 [10, 11, 12, 13]), none)
  | BandName.CN_470_510 =>
      (sampleBandOf (channelRun 470300000 200000 96 [0, 1, 2, 3, 4, 5])
        (channelRun 500300000 200000 48 [0, 1, 2, 3, 4, 5]), none)
  | BandName.AS_923 =>
      let up := channelRun 923200000 200000 2 [0, 1, 2, 3, 4, 5]
      (sampleBandOf up up, none)
  | BandName.KR_920_923 =>
      let up := channelRun 922100000 200000 3 [0, 1, 2, 3, 4, 5]
      (sampleBandOf up up, none)
  | BandName.IN_865_867 =>
      let up := [mkChannel 865062500 [0, 1, 2, 3, 4, 5], mkChannel 865402500 [0, 1, 2, 3, 4, 5],
                 mkChannel 865985000 [0, 1, 2, 3, 4, 5]]
      (sampleBandOf up up, none)
  | BandName.RU_864_870 =>
      let up := channelRun 868900000 200000 2 [0, 1, 2, 3, 4, 5]
      (sampleBandOf up up, none)

/-- The sample environment: the sample configuration source with the default
options. -/
def sampleEnv : Env :=
  { GetConfig := sampleGetConfig, GetInt := defaultGetInt }

/-- A small frequency plan whose TX-power table is `[20, 14, 11, 8, 5, 2]`. -/
def samplePlan : FrequencyPlan :=
  { toBand := (sampleGetConfig BandName.EU_863_870 false DwellTime.DwellTimeNoLimit).1,
    ADR := none, CFList := none }

/-! ## Further notions: the library call of a region, Get as a step, the CFList -/

/-- The call `lora.GetConfig(name, false, dwellTime)` made by the `switch` case of
region `r` in `Get`: the band name and dwell time are those of the case (the three
AS regions all read the band AS_923). -/
def sourceResult (env : Env) : PbFrequencyPlan → Band × Option Error
  | PbFrequencyPlan.EU_863_870 =>
      env.GetConfig BandName.EU_863_870 false DwellTime.DwellTimeNoLimit
  | PbFrequencyPlan.US_902_928 =>
      env.GetConfig BandName.US_902_928 false DwellTime.DwellTime400ms
  | PbFrequencyPlan.CN_779_787 =>
      env.GetConfig BandName.CN_779_787 false DwellTime.DwellTimeNoLimit
  | PbFrequencyPlan.EU_433 =>
      env.GetConfig BandName.EU_433 false DwellTime.DwellTimeNoLimit
  | PbFrequencyPlan.AU_915_928 =>
      env.GetConfig BandName.AU_915_928 false DwellTime.DwellTime400ms
  | PbFrequencyPlan.CN_470_510 =>
      env.GetConfig BandName.CN_470_510 false DwellTime.DwellTimeNoLimit
  | PbFrequencyPlan.AS_923 =>
      env.GetConfig BandName.AS_923 false DwellTime.DwellTime400ms
  | PbFrequencyPlan.AS_920_923 =>
      env.GetConfig BandName.AS_923 false DwellTime.DwellTime400ms
  | PbFrequencyPlan.AS_923_925 =>
      env.GetConfig BandName.AS_923 false DwellTime.DwellTime400ms
  | PbFrequencyPlan.KR_920_923 =>
      env.GetConfig BandName.KR_920_923 false DwellTime.DwellTimeNoLimit
  | PbFrequencyPlan.IN_865_867 =>
      env.GetConfig BandName.IN_865_867 false DwellTime.DwellTimeNoLimit
  | PbFrequencyPlan.RU_864_870 =>
      env.GetConfig BandName.RU_864_870 false DwellTime.DwellTimeNoLimit

/-- A call of `Get` as a step on the package variables: the pair of results and the
state after the call.  The body of `Get` reads `frequencyPlans` and assigns only to
its named results, so the state after the call is the state before it. -/
def GetStep (env : Env) (s : State) (region : String) :
    (FrequencyPlan × Option Error) × State :=
  (Get env s.frequencyPlans region, s)

/-- The state after the calls `InitializeTables` made one after the other under the
environments `envs` (one environment per call, in order). -/
def initializeRepeatedly (envs : List Env) (s : State) : State :=
  envs.foldl (fun st env => InitializeTables env st) s

/-- The non-zero slots of the CFList of a plan, in order (none when there is no
CFList). -/
def cfListNonZero (fp : FrequencyPlan) : List Nat :=
  (fp.CFList.getD []).filter (fun x => decide (x ≠ 0))

/-- The regions whose `switch` case sets a CFList. -/
def cfListRegions : List PbFrequencyPlan :=
  [PbFrequencyPlan.EU_863_870, PbFrequencyPlan.AS_920_923, PbFrequencyPlan.AS_923_925,
   PbFrequencyPlan.KR_920_923, PbFrequencyPlan.RU_864_870]

/-- The frequencies of the uplink channels of a plan, in order. -/
def uplinkFrequencies (fp : FrequencyPlan) : List Int :=
  fp.UplinkChannels.map (fun ch => ch.Frequency)

/-- A Band Configuration Source that fails for EU_863_870 and IN_865_867 (with the
zero band, as the band library does for a band it cannot build) and answers like the
sample source for the other bands. -/
def failingGetConfig (name : BandName) (repeaterCompatible : Bool) (dt : DwellTime) :
    Band × Option Error :=
  if name = BandName.EU_863_870 ∨ name = BandName.IN_865_867 then
    (Band.zero, some (Error.library "lorawan/band: band is undefined"))
  else sampleGetConfig name repeaterCompatible dt

/-- The environment of the failing source, with the default options. -/
def failingEnv : Env :=
  { GetConfig := failingGetConfig, GetInt := defaultGetInt }

/-- The sample environment with the option `eu-rx2-dr` set to 5. -/
def rx2Env : Env :=
  { GetConfig := sampleGetConfig,
    GetInt := fun key => if key = "eu-rx2-dr" then 5 else defaultGetInt key }

/-! ## The data-rate accessors -/

/-- Outcome of a Go call that can end in a run-time panic instead of returning. -/
inductive GoResult (α : Type) where
  | returned (a : α)
  | panicked (msg : String)
  deriving DecidableEq, Repr

/-- Modelled from the spec: the data-rate value of the package `core/types`, which is
not among the sources.  The canonical representation is the "spreading-factor /
bandwidth notation", so the value holds a spreading factor and a bandwidth, both
unsigned (line 37 of `band.go` converts them with `int(...)`). -/
structure TypesDataRate where
  SpreadingFactor : Nat
  Bandwidth : Nat
  deriving DecidableEq, Repr

/-- Modelled from the spec: `types.ConvertDataRate`, which is not among the sources.
It turns a data rate of the band library into a `TypesDataRate` and "fails with an
invalid data rate kind if the underlying data rate value cannot be interpreted": a
data rate whose modulation is not LoRa has no spreading-factor / bandwidth form.  The
two numbers are converted from the Go `int` to the unsigned type (a negative value
wraps); the value is returned together with the error. -/
def ConvertDataRate (input : DataRate) : TypesDataRate × Option Error :=
  ({ SpreadingFactor := (input.SpreadFactor % 2 ^ 64).toNat,
     Bandwidth := (input.Bandwidth % 2 ^ 64).toNat },
   if input.Modulation = Modulation.LoRaModulation then none
   else some (Error.New "ttn/core: FSK can not be converted to a LoRa DataRate"))

/-- Modelled from the spec: the `String()` method of `types.DataRate`, which is not
among the sources: the spreading-factor / bandwidth notation `SF<sf>BW<bw>` with both
numbers in decimal. -/
def TypesDataRate.String (dr : TypesDataRate) : String :=
  List.asString ([ 'S', 'F'] ++ Nat.toDigits 10 dr.SpreadingFactor ++ [ 'B', 'W'] ++
    Nat.toDigits 10 dr.Bandwidth)

/-- Modelled from the spec: part of `types.ParseDataRate`, which is not among the
sources.  The data rates a descriptor can name: the LoRa spreading factors 7 to 12
with the bandwidths 125, 250 and 500 (kHz), in the order in which the parser tries
them. -/
def descriptorDataRates : List TypesDataRate :=
  [7, 8, 9, 10, 11, 12].flatMap (fun sf =>
    [125, 250, 500].map (fun bw => { SpreadingFactor := sf, Bandwidth := bw }))

/-- Modelled from the spec: part of `types.ParseDataRate`, which is not among the
sources.  The data rate whose descriptor `SF<sf>BW<bw>` the characters `cs` start
with, if any.  No descriptor is the beginning of another one, so at most one fits. -/
def descriptorAt (cs : List Char) : Option TypesDataRate :=
  descriptorDataRates.find? (fun dr => dr.String.data.isPrefixOf cs)

/-- Modelled from the spec: part of `types.ParseDataRate`, which is not among the
sources.  The leftmost descriptor occurring anywhere in the characters `cs`. -/
def findDescriptor : List Char → Option TypesDataRate
  | [] => none
  | c :: rest =>
    match descriptorAt (c :: rest) with
    | some dr => some dr
    | none => findDescriptor rest

/-- Modelled from the spec: `types.ParseDataRate`, which is not among the sources.  It
"parses a textual data-rate descriptor" and "fails with a parse kind if the string is
malformed".  The parser searches the input for the first occurrence of a descriptor
`SF<sf>BW<bw>` with a spreading factor from 7 to 12 and a bandwidth of 125, 250 or
500 (the search is not anchored: text before and after the descriptor is ignored) and
returns these two numbers; an input with no such occurrence is malformed. -/
def ParseDataRate (input : String) : TypesDataRate × Option Error :=
  match findDescriptor input.data with
  | some dr => (dr, none)
  | none =>
    ({ SpreadingFactor := 0, Bandwidth := 0 }, some (Error.New "ttn/core: Invalid DataRate"))

/-- The scan of the data-rate table started at index `i`: the index of the first
entry equal to `dr`, if any. -/
def dataRateScan (dr : DataRate) : List DataRate → Nat → Option Nat
  | [], _ => none
  | d :: rest, i => if d = dr then some i else dataRateScan dr rest (i + 1)

/-- Modelled from the spec: `lora.Band.GetDataRate` of the band library, the "inverse
lookup" that returns the index of a data rate "within the plan's modulation table,
matching on modulation family, spreading factor, and bandwidth", and fails with a
"not found" kind if no entry matches.  The library compares the whole data-rate
value with each entry of the table, so the bit rate has to agree as well (it is 0 in
the value `GetDataRateIndexFor` passes); the first equal entry wins. -/
def Band.GetDataRate (b : Band) (dr : DataRate) : Int × Option Error :=
  match dataRateScan dr b.DataRates 0 with
  | some i => ((i : Int), none)
  | none => (0, some (Error.library "lorawan/band: the given data-rate does not exist"))

/-- `FrequencyPlan.GetDataRateStringForIndex`.  The expression `f.DataRates[drIdx]`
indexes a slice: Go checks the index at run time and panics when it is negative or
not below the length. -/
def FrequencyPlan.GetDataRateStringForIndex (f : FrequencyPlan) (drIdx : Int) :
    GoResult (String × Option Error) :=
  match (if 0 ≤ drIdx then f.DataRates[drIdx.toNat]? else none) with
  | none => GoResult.panicked "runtime error: index out of range"
  | some d =>
    match (ConvertDataRate d).2 with
    | some err => GoResult.returned ("", some err)
    | none => GoResult.returned ((ConvertDataRate d).1.String, none)

/-- `FrequencyPlan.GetDataRateIndexFor`: the parsed data rate is looked up as a LoRa
data rate; `int(dr.SpreadingFactor)` and `int(dr.Bandwidth)` are conversions to the
Go `int`. -/
def FrequencyPlan.GetDataRateIndexFor (f : FrequencyPlan) (dataRate : String) :
    Int × Option Error :=
  match (ParseDataRate dataRate).2 with
  | some err => (0, some err)
  | none =>
    f.toBand.GetDataRate
      { Modulation := Modulation.LoRaModulation,
        SpreadFactor := wrapInt64 ((ParseDataRate dataRate).1.SpreadingFactor : Int),
        Bandwidth := wrapInt64 ((ParseDataRate dataRate).1.Bandwidth : Int),
        BitRate := 0 }

/-- The data-rate table of the EU 863-870 band in the LoRaWAN regional parameters:
SF12 to SF7 at 125 kHz, SF7 at 250 kHz, and FSK at 50 kbps as data rate 7. -/
def euDataRates : List DataRate :=
  [{ Modulation := Modulation.LoRaModulation, SpreadFactor := 12, Bandwidth := 125, BitRate := 0 },
   { Modulation := Modulation.LoRaModulation, SpreadFactor := 11, Bandwidth := 125, BitRate := 0 },
   { Modulation := Modulation.LoRaModulation, SpreadFactor := 10, Bandwidth := 125, BitRate := 0 },
   { Modulation := Modulation.LoRaModulation, SpreadFactor := 9, Bandwidth := 125, BitRate := 0 },
   { Modulation := Modulation.LoRaModulation, SpreadFactor := 8, Bandwidth := 125, BitRate := 0 },
   { Modulation := Modulation.LoRaModulation, SpreadFactor := 7, Bandwidth := 125, BitRate := 0 },
   { Modulation := Modulation.LoRaModulation, SpreadFactor := 7, Bandwidth := 250, BitRate := 0 },
   { Modulation := Modulation.FSKModulation, SpreadFactor := 0, Bandwidth := 0, BitRate := 50000 }]

/-- The sample source with the full EU data-rate table for every band. -/
def fskGetConfig (name : BandName) (repeaterCompatible : Bool) (dt : DwellTime) :
    Band × Option Error :=
  ({ (sampleGetConfig name repeaterCompatible dt).1 with DataRates := euDataRates }, none)

/-- The environment of the source with the full EU data-rate table. -/
def fskEnv : Env :=
  { GetConfig := fskGetConfig, GetInt := defaultGetInt }

/-! ## Guess: the special cases and the index (C1, C2) -/

/-- C1: whatever the Channel Index holds (nil, empty or any mapping), `Guess` returns
"AS_923" for 923200000 and 923400000, and "KR_920_923" for 922100000, 922300000 and
922500000. -/
theorem guess_special_cases (channels : GoMap Int String) :
    Guess channels 923200000 = "AS_923" ∧ Guess channels 923400000 = "AS_923" ∧
    Guess channels 922100000 = "KR_920_923" ∧ Guess channels 922300000 = "KR_920_923" ∧
    Guess channels 922500000 = "KR_920_923" := by
  refine ⟨?_, ?_, ?_, ?_, ?_⟩ <;> simp [Guess, PbFrequencyPlan.String]

/-- For a `uint64` below `2^63` the conversion `int(frequency)` keeps the value; from
`2^63` on it subtracts `2^64`. -/
theorem wrapInt64_ofNat (f : Nat) (hf : f < 2 ^ 64) :
    wrapInt64 (f : Int) = if f < 2 ^ 63 then (f : Int) else (f : Int) - 2 ^ 64 := by
  unfold wrapInt64
  split <;> omega

/-- C2: for a frequency `f` (a `uint64`) other than the five special-cased values and
any Channel Index, `Guess f` is the region stored under the key of `f` when there is
one and the empty string otherwise; the key of `f` in the `int`-keyed index is
`int(f)`, which is `f` itself below `2^63`.  With a nil or an empty index the result
is the empty string. -/
theorem guess_consults_index (channels : GoMap Int String) (f : Nat) (hf : f < 2 ^ 64)
    (h1 : f ≠ 923200000) (h2 : f ≠ 923400000) (h3 : f ≠ 922100000) (h4 : f ≠ 922300000)
    (h5 : f ≠ 922500000) :
    (∀ region, mapGet channels (if f < 2 ^ 63 then (f : Int) else (f : Int) - 2 ^ 64) = some region →
        Guess channels f = region) ∧
    (mapGet channels (if f < 2 ^ 63 then (f : Int) else (f : Int) - 2 ^ 64) = none →
        Guess channels f = "") ∧
    Guess none f = "" ∧ Guess (some []) f = "" := by
  have hk := wrapInt64_ofNat f hf
  refine ⟨?_, ?_, ?_, ?_⟩
  · intro region hr
    simp only [Guess, h1, h2, h3, h4, h5, or_self, if_false, hk, hr]
  · intro hr
    simp only [Guess, h1, h2, h3, h4, h5, or_self, if_false, hk, hr]
  · simp [Guess, h1, h2, h3, h4, h5, mapGet]
  · simp [Guess, h1, h2, h3, h4, h5, mapGet, assocGet]

/-- Witness for C2: with the index `{868100000 ↦ "EU_863_870"}`, `Guess 868100000` is
the stored region, and `Guess 1` is empty for that, the nil and the empty index. -/
theorem guess_consults_index_witness :
    Guess (some [(868100000, "EU_863_870")]) 868100000 = "EU_863_870" ∧
    Guess (some [(868100000, "EU_863_870")]) 1 = "" ∧
    Guess none 1 = "" ∧ Guess (some []) 1 = "" :=
  ⟨(guess_consults_index (some [(868100000, "EU_863_870")]) 868100000 (by norm_num)
      (by decide) (by decide) (by decide) (by decide) (by decide)).1 "EU_863_870"
      (by simp [mapGet, assocGet]),
   (guess_consults_index (some [(868100000, "EU_863_870")]) 1 (by norm_num)
      (by decide) (by decide) (by decide) (by decide) (by decide)).2.1
      (by simp [mapGet, assocGet]),
   (guess_consults_index none 1 (by norm_num)
      (by decide) (by decide) (by decide) (by decide) (by decide)).2.2.1,
   (guess_consults_index (some []) 1 (by norm_num)
      (by decide) (by decide) (by decide) (by decide) (by decide)).2.2.2⟩

/-! ## GetTxPowerIndexFor (C8, C9) -/

/-- The scan started at index `i` finds nothing exactly when `txPower` is not in the
rest of the table. -/
theorem txPowerScan_eq_none (txPower : Int) (l : List Int) (i : Nat) :
    txPowerScan txPower l i = none ↔ txPower ∉ l := by
  induction l generalizing i with
  | nil => simp [txPowerScan]
  | cons power rest ih =>
    unfold txPowerScan
    by_cases h : power = txPower
    · simp [h]
    · have h' : ¬ txPower = power := fun e => h e.symm
      simp [h, h', ih]

/-- A result `k` of the scan started at index `i` is the position (shifted by `i`) of
the first entry equal to `txPower`. -/
theorem txPowerScan_eq_some (txPower : Int) (l : List Int) (i k : Nat)
    (h : txPowerScan txPower l i = some k) :
    i ≤ k ∧ l[k - i]? = some txPower ∧ ∀ j, j < k - i → l[j]? ≠ some txPower := by
  induction l generalizing i with
  | nil => simp [txPowerScan] at h
  | cons power rest ih =>
    unfold txPowerScan at h
    by_cases hp : power = txPower
    · simp only [hp, if_true, Option.some.injEq] at h
      subst h
      simp [hp]
    · simp only [hp, if_false] at h
      obtain ⟨h1, h2, h3⟩ := ih (i + 1) h
      have hk : k - i = (k - (i + 1)) + 1 := by omega
      refine ⟨by omega, ?_, ?_⟩
      · rw [hk]; simpa using h2
      · intro j hj
        cases j with
        | zero => simpa using hp
        | succ j =>
          have := h3 j (by omega)
          simpa using this

/-- C8: for every TX-power table and every power value that occurs in it,
`GetTxPowerIndexFor` succeeds (nil error) and returns the first matching index: the
entry at the returned index is the value, and no entry before it is; when the value
occurs at one index only, the returned index is that index. -/
theorem getTxPowerIndexFor_first_match (f : FrequencyPlan) (txPower : Int)
    (h : txPower ∈ f.TXPower) :
    ∃ i : Nat, f.GetTxPowerIndexFor txPower = ((i : Int), none) ∧
      f.TXPower[i]? = some txPower ∧ (∀ j, j < i → f.TXPower[j]? ≠ some txPower) ∧
      ((∀ a b : Nat, f.TXPower[a]? = some txPower → f.TXPower[b]? = some txPower → a = b) →
        ∀ j : Nat, f.TXPower[j]? = some txPower → j = i) := by
  cases hs : txPowerScan txPower f.TXPower 0 with
  | none => exact absurd h ((txPowerScan_eq_none txPower f.TXPower 0).1 hs)
  | some k =>
    obtain ⟨_, h2, h3⟩ := txPowerScan_eq_some txPower f.TXPower 0 k hs
    have h2' : f.TXPower[k]? = some txPower := by simpa using h2
    refine ⟨k, ?_, h2', fun j hj => h3 j (by simpa using hj), fun hu j hj => hu j k hj h2'⟩
    simp [FrequencyPlan.GetTxPowerIndexFor, hs]

/-- Witness for C8: in the table `[20, 14, 11, 8, 5, 2]` the power 11 is found, at an
index before which it does not occur. -/
theorem getTxPowerIndexFor_first_match_witness :
    (11 : Int) ∈ samplePlan.TXPower ∧
    ∃ i : Nat, samplePlan.GetTxPowerIndexFor 11 = ((i : Int), none) ∧
      samplePlan.TXPower[i]? = some 11 ∧ (∀ j, j < i → samplePlan.TXPower[j]? ≠ some 11) ∧
      ((∀ a b : Nat, samplePlan.TXPower[a]? = some 11 → samplePlan.TXPower[b]? = some 11 →
          a = b) →
        ∀ j : Nat, samplePlan.TXPower[j]? = some 11 → j = i) :=
  ⟨by decide, getTxPowerIndexFor_first_match samplePlan 11 (by decide)⟩

/-- C9: for every TX-power table and every power value, `GetTxPowerIndexFor` fails,
with the error "the given tx-power does not exist" and index 0, if and only if no
entry of the table equals the value; it never returns any other error, and on an
empty table it fails for every value.  There is no nearest-value fallback. -/
theorem getTxPowerIndexFor_fails_iff (f : FrequencyPlan) (txPower : Int) :
    (f.GetTxPowerIndexFor txPower =
        (0, some (Error.New "core/band: the given tx-power does not exist")) ↔
      txPower ∉ f.TXPower) ∧
    ((f.GetTxPowerIndexFor txPower).2 ≠ none ↔ txPower ∉ f.TXPower) ∧
    ({ f with TXPower := [] } : FrequencyPlan).GetTxPowerIndexFor txPower =
        (0, some (Error.New "core/band: the given tx-power does not exist")) := by
  refine ⟨?_, ?_, ?_⟩
  · rw [← txPowerScan_eq_none txPower f.TXPower 0]
    cases hs : txPowerScan txPower f.TXPower 0 <;> simp [FrequencyPlan.GetTxPowerIndexFor, hs]
  · rw [← txPowerScan_eq_none txPower f.TXPower 0]
    cases hs : txPowerScan txPower f.TXPower 0 <;> simp [FrequencyPlan.GetTxPowerIndexFor, hs]
  · simp [FrequencyPlan.GetTxPowerIndexFor, txPowerScan]

/-! ## The sub-band masking of US_902_928 and AU_915_928 (C6, C7) -/

/-- The `switch` case of US_902_928. -/
theorem buildPlan_US (env : Env) :
    buildPlan env "US_902_928" =
      ({ toBand := fsbLoop (env.GetInt "us-fsb")
            (env.GetConfig BandName.US_902_928 false DwellTime.DwellTime400ms).1,
         ADR := some { MinDataRate := 0, MaxDataRate := 3, MinTXPower := 10, MaxTXPower := 20,
                       StepTXPower := 2 },
         CFList := none },
       (env.GetConfig BandName.US_902_928 false DwellTime.DwellTime400ms).2) := by
  simp [buildPlan, PbFrequencyPlan.String]

/-- The `switch` case of AU_915_928. -/
theorem buildPlan_AU (env : Env) :
    buildPlan env "AU_915_928" =
      ({ toBand := fsbLoop (env.GetInt "au-fsb")
            (env.GetConfig BandName.AU_915_928 false DwellTime.DwellTime400ms).1,
         ADR := some { MinDataRate := 0, MaxDataRate := 5, MinTXPower := 10, MaxTXPower := 20,
                       StepTXPower := 2 },
         CFList := none },
       (env.GetConfig BandName.AU_915_928 false DwellTime.DwellTime400ms).2) := by
  simp [buildPlan, PbFrequencyPlan.String]

/-- For a selector whose products do not leave the range of the Go `int`, the
condition of the loop is the sub-band rule of the specification. -/
theorem fsbDisables_eq (fsb : Int) (h1 : -2 ^ 60 ≤ fsb) (h2 : fsb ≤ 2 ^ 60 - 2) (c : Nat) :
    fsbDisables fsb c = outsideSubBand fsb c := by
  have e1 : wrapInt64 (fsb * 8) = 8 * fsb := by unfold wrapInt64; omega
  have e2 : wrapInt64 (wrapInt64 (fsb + 1) * 8) = 8 * fsb + 8 := by unfold wrapInt64; omega
  have e3 : wrapInt64 (fsb + 64) = 64 + fsb := by unfold wrapInt64; omega
  simp only [fsbDisables, outsideSubBand, e1, e2, e3, ge_iff_le]

/-- One step of the sub-band loop rewrites at most the channel at index `channel`. -/
theorem fsbStep_eq (fsb : Int) (b : Band) (channel : Nat) :
    fsbStep fsb b channel =
      { b with UplinkChannels := (b.UplinkChannels.modify
          (fun ch => if fsbDisables fsb channel then { ch with deactivated := true } else ch)
          channel) } := by
  unfold fsbStep Band.DisableUplinkChannel
  by_cases hc : fsbDisables fsb channel = true
  · by_cases hl : b.UplinkChannels.length ≤ channel
    · simp only [hc, hl, if_true, List.modify_eq_self hl]
    · simp only [hc, hl, if_true, if_false]
  · have hm : b.UplinkChannels.modify (fun ch : Channel => ch) channel = b.UplinkChannels := by
      apply List.ext_getElem?
      intro i
      rw [List.getElem?_modify]
      cases b.UplinkChannels[i]? <;> simp
    simp [hc, hm]

/-- The sub-band loop run over the first `n` channel indices. -/
theorem fsbLoop_range (fsb : Int) (b : Band) (n : Nat) :
    (List.range n).foldl (fsbStep fsb) b =
      { b with UplinkChannels := (b.UplinkChannels.mapIdx
          (fun i ch => if decide (i < n) && fsbDisables fsb i then { ch with deactivated := true }
                       else ch)) } := by
  induction n with
  | zero =>
    have hm : b.UplinkChannels.mapIdx (fun _ (ch : Channel) => ch) = b.UplinkChannels := by
      apply List.ext_getElem?
      intro i
      rw [List.getElem?_mapIdx]
      cases b.UplinkChannels[i]? <;> simp
    simp [hm]
  | succ n ih =>
    rw [List.range_succ, List.foldl_append, ih]
    simp only [List.foldl_cons, List.foldl_nil, fsbStep_eq]
    congr 1
    apply List.ext_getElem?
    intro i
    simp only [List.getElem?_modify, List.getElem?_mapIdx]
    cases hb : b.UplinkChannels[i]? with
    | none => simp
    | some ch =>
      by_cases hi : n = i
      · subst hi
        by_cases hd : fsbDisables fsb n = true <;> simp [hd]
      · have : (i < n + 1) = (i < n) := by
          apply propext; omega
        simp [hi, this]

/-- The uplink channels after the whole sub-band loop. -/
theorem fsbLoop_uplink (fsb : Int) (b : Band) :
    (fsbLoop fsb b).UplinkChannels = b.UplinkChannels.mapIdx
      (fun i ch => if decide (i < 72) && fsbDisables fsb i then { ch with deactivated := true }
                   else ch) := by
  unfold fsbLoop
  rw [fsbLoop_range]

/-- Building the US_902_928 plan on a registry miss: the uplink channel at an index
below 72 is the base channel, deactivated when it lies outside the selected
sub-band. -/
theorem get_US_uplink (env : Env) (frequencyPlans : GoMap String FrequencyPlan)
    (hUS : mapGet frequencyPlans "US_902_928" = none)
    (hus : -2 ^ 60 ≤ env.GetInt "us-fsb" ∧ env.GetInt "us-fsb" ≤ 2 ^ 60 - 2)
    (c : Nat) (hc : c < 72) :
    (Get env frequencyPlans "US_902_928").1.UplinkChannels[c]? =
      ((env.GetConfig BandName.US_902_928 false DwellTime.DwellTime400ms).1.UplinkChannels[c]?).map
        (fun ch => if outsideSubBand (env.GetInt "us-fsb") c then { ch with deactivated := true }
                   else ch) := by
  simp only [Get, hUS, buildPlan_US, fsbLoop_uplink, List.getElem?_mapIdx,
    fsbDisables_eq _ hus.1 hus.2, hc, decide_True, Bool.true_and]

/-- Building the AU_915_928 plan on a registry miss: as for US_902_928, with the
selector `au-fsb`. -/
theorem get_AU_uplink (env : Env) (frequencyPlans : GoMap String FrequencyPlan)
    (hAU : mapGet frequencyPlans "AU_915_928" = none)
    (hau : -2 ^ 60 ≤ env.GetInt "au-fsb" ∧ env.GetInt "au-fsb" ≤ 2 ^ 60 - 2)
    (c : Nat) (hc : c < 72) :
    (Get env frequencyPlans "AU_915_928").1.UplinkChannels[c]? =
      ((env.GetConfig BandName.AU_915_928 false DwellTime.DwellTime400ms).1.UplinkChannels[c]?).map
        (fun ch => if outsideSubBand (env.GetInt "au-fsb") c then { ch with deactivated := true }
                   else ch) := by
  simp only [Get, hAU, buildPlan_AU, fsbLoop_uplink, List.getElem?_mapIdx,
    fsbDisables_eq _ hau.1 hau.2, hc, decide_True, Bool.true_and]

/-- For each selector from 0 to 7, the indices below 72 inside the sub-band, and the
number of those outside. -/
theorem subBand_indices (S : Nat) (hS : S ≤ 7) :
    (List.range 72).filter (fun i => !outsideSubBand (S : Int) i) =
      List.range' (8 * S) 8 ++ [64 + S] ∧
    ((List.range 72).filter (fun i => outsideSubBand (S : Int) i)).length = 63 := by
  interval_cases S <;> decide

/-- C6: when `Get` builds the US_902_928 plan (registry miss) with sub-band selector
`S = us-fsb`, and likewise the AU_915_928 plan with `S = au-fsb`, then for every
channel index `c < 72` the uplink channel `c` of the result is the base channel `c`,
disabled if and only if `c` lies outside the block `[8*S, 8*S+8)` and is not `64+S`;
a channel inside the block, and channel `64+S`, is returned as the band library gave
it.  The selector is any value whose products `8*S` and `8*(S+1)` fit the Go `int`. -/
theorem get_subband_mask (env : Env) (frequencyPlans : GoMap String FrequencyPlan)
    (hUS : mapGet frequencyPlans "US_902_928" = none)
    (hAU : mapGet frequencyPlans "AU_915_928" = none)
    (hus : -2 ^ 60 ≤ env.GetInt "us-fsb" ∧ env.GetInt "us-fsb" ≤ 2 ^ 60 - 2)
    (hau : -2 ^ 60 ≤ env.GetInt "au-fsb" ∧ env.GetInt "au-fsb" ≤ 2 ^ 60 - 2)
    (c : Nat) (hc : c < 72) :
    (Get env frequencyPlans "US_902_928").1.UplinkChannels[c]? =
      ((env.GetConfig BandName.US_902_928 false DwellTime.DwellTime400ms).1.UplinkChannels[c]?).map
        (fun ch => if outsideSubBand (env.GetInt "us-fsb") c then { ch with deactivated := true }
                   else ch) ∧
    (Get env frequencyPlans "AU_915_928").1.UplinkChannels[c]? =
      ((env.GetConfig BandName.AU_915_928 false DwellTime.DwellTime400ms).1.UplinkChannels[c]?).map
        (fun ch => if outsideSubBand (env.GetInt "au-fsb") c then { ch with deactivated := true }
                   else ch) :=
  ⟨get_US_uplink env frequencyPlans hUS hus c hc, get_AU_uplink env frequencyPlans hAU hau c hc⟩

/-- Witness for C6: in the sample environment (selectors 1) channel 3 of both plans
is outside the block `[8, 16)`. -/
theorem get_subband_mask_witness :
    (Get sampleEnv none "US_902_928").1.UplinkChannels[3]? =
      ((sampleEnv.GetConfig BandName.US_902_928 false DwellTime.DwellTime400ms).1.UplinkChannels[3]?).map
        (fun ch => if outsideSubBand (sampleEnv.GetInt "us-fsb") 3 then { ch with deactivated := true }
                   else ch) ∧
    (Get sampleEnv none "AU_915_928").1.UplinkChannels[3]? =
      ((sampleEnv.GetConfig BandName.AU_915_928 false DwellTime.DwellTime400ms).1.UplinkChannels[3]?).map
        (fun ch => if outsideSubBand (sampleEnv.GetInt "au-fsb") 3 then { ch with deactivated := true }
                   else ch) :=
  get_subband_mask sampleEnv none rfl rfl (by decide) (by decide) 3 (by decide)

/-- C7: for a US_902_928 base plan with 72 uplink channels, all enabled, building
with a selector `S` from 0 to 7 leaves exactly 9 of the 72 uplink channels enabled,
those with indices `8*S .. 8*S+7` and `64+S`, and disables the other 63; for `S = 1`
these are the channels 8..15 and 65. -/
theorem get_US_enabled_channels (env : Env) (frequencyPlans : GoMap String FrequencyPlan)
    (hUS : mapGet frequencyPlans "US_902_928" = none)
    (hlen : (env.GetConfig BandName.US_902_928 false
      DwellTime.DwellTime400ms).1.UplinkChannels.length = 72)
    (hen : ∀ ch ∈ (env.GetConfig BandName.US_902_928 false
      DwellTime.DwellTime400ms).1.UplinkChannels, ch.deactivated = false)
    (S : Nat) (hS : S ≤ 7) (hfsb : env.GetInt "us-fsb" = (S : Int)) :
    (Get env frequencyPlans "US_902_928").1.UplinkChannels.length = 72 ∧
    enabledUplinkIndices (Get env frequencyPlans "US_902_928").1.toBand =
      List.range' (8 * S) 8 ++ [64 + S] ∧
    (enabledUplinkIndices (Get env frequencyPlans "US_902_928").1.toBand).length = 9 ∧
    (disabledUplinkIndices (Get env frequencyPlans "US_902_928").1.toBand).length = 63 := by
  have hr : -2 ^ 60 ≤ env.GetInt "us-fsb" ∧ env.GetInt "us-fsb" ≤ 2 ^ 60 - 2 := by
    rw [hfsb]; constructor <;> omega
  have hL : (Get env frequencyPlans "US_902_928").1.UplinkChannels.length = 72 := by
    simp only [Get, hUS, buildPlan_US, fsbLoop_uplink, List.length_mapIdx, hlen]
  have hget : ∀ i, i < 72 →
      ∃ ch, (Get env frequencyPlans "US_902_928").1.UplinkChannels[i]? = some ch ∧
        ch.deactivated = outsideSubBand (S : Int) i := by
    intro i hi
    have hi' : i < (env.GetConfig BandName.US_902_928 false
        DwellTime.DwellTime400ms).1.UplinkChannels.length := by
      rw [hlen]; exact hi
    have hb := hen _ (List.getElem_mem hi')
    rw [get_US_uplink env frequencyPlans hUS hr i hi, List.getElem?_eq_getElem hi', hfsb]
    by_cases ho : outsideSubBand (S : Int) i = true
    · exact ⟨_, rfl, by simp [ho]⟩
    · exact ⟨_, rfl, by simp [ho, hb]⟩
  have hE : enabledUplinkIndices (Get env frequencyPlans "US_902_928").1.toBand =
      (List.range 72).filter (fun i => !outsideSubBand (S : Int) i) := by
    unfold enabledUplinkIndices
    rw [hL]
    apply List.filter_congr
    intro i hi
    obtain ⟨ch, h1, h2⟩ := hget i (List.mem_range.1 hi)
    simp [h1, h2]
  have hD : disabledUplinkIndices (Get env frequencyPlans "US_902_928").1.toBand =
      (List.range 72).filter (fun i => outsideSubBand (S : Int) i) := by
    unfold disabledUplinkIndices
    rw [hL]
    apply List.filter_congr
    intro i hi
    obtain ⟨ch, h1, h2⟩ := hget i (List.mem_range.1 hi)
    simp [h1, h2]
  refine ⟨hL, ?_, ?_, ?_⟩
  · rw [hE]; exact (subBand_indices S hS).1
  · rw [hE, (subBand_indices S hS).1]; simp
  · rw [hD]; exact (subBand_indices S hS).2

/-- Witness for C7: in the sample environment (72 enabled base channels, selector 1)
the enabled channels are 8..15 and 65, and 63 channels are disabled. -/
theorem get_US_enabled_channels_witness :
    enabledUplinkIndices (Get sampleEnv none "US_902_928").1.toBand =
      [8, 9, 10, 11, 12, 13, 14, 15, 65] ∧
    (enabledUplinkIndices (Get sampleEnv none "US_902_928").1.toBand).length = 9 ∧
    (disabledUplinkIndices (Get sampleEnv none "US_902_928").1.toBand).length = 63 :=
  (get_US_enabled_channels sampleEnv none rfl (by decide) (by decide) 1 (by decide) rfl).2

/-! ## Maps: reading after writing -/

/-- Removing the entries of key `k` does not change what is stored under another key. -/
theorem assocGet_filter_ne {κ ν : Type} [DecidableEq κ] (l : List (κ × ν)) (k k' : κ)
    (h : k ≠ k') :
    assocGet (l.filter (fun p => decide (p.1 ≠ k))) k' = assocGet l k' := by
  induction l with
  | nil => rfl
  | cons p rest ih =>
    obtain ⟨a, v⟩ := p
    rw [List.filter_cons]
    by_cases ha : a = k
    · have hd : decide ((a, v).1 ≠ k) = false := by simp [ha]
      have hak : ¬ a = k' := by rw [ha]; exact h
      rw [hd]
      simp only [Bool.false_eq_true, if_false, assocGet, hak]
      exact ih
    · have hd : decide ((a, v).1 ≠ k) = true := by simp [ha]
      rw [hd]
      simp only [if_true, assocGet, ih]

/-- Reading an allocated map after an assignment. -/
theorem mapGet_mapSet {κ ν : Type} [DecidableEq κ] (l : List (κ × ν)) (k k' : κ) (v : ν) :
    mapGet (mapSet (some l) k v) k' = if k = k' then some v else mapGet (some l) k' := by
  by_cases h : k = k'
  · simp [mapGet, mapSet, assocGet, h]
  · simp only [mapGet, mapSet, assocGet, h, if_false]
    exact assocGet_filter_ne l k k' h

/-- An assignment into an allocated map leaves it allocated. -/
theorem mapSet_isSome {κ ν : Type} [DecidableEq κ] (l : List (κ × ν)) (k : κ) (v : ν) :
    ∃ l', mapSet (some l) k v = some l' := ⟨_, rfl⟩

/-! ## The inner loop of InitializeTables -/

/-- The inner loop over the uplink channels `chs` of one region, run on an allocated
index: a frequency keeps the region it already had, and a frequency that was not a
key gets `region` exactly when `chs` has a multi-rate channel of that frequency. -/
theorem indexChannel_foldl (region : String) (chs : List Channel) (l : List (Int × String)) :
    ∃ l', chs.foldl (indexChannel region) (some l) = some l' ∧
      ∀ f, assocGet l' f =
        match assocGet l f with
        | some r => some r
        | none =>
          if chs.any (fun ch => decide (ch.Frequency = f) && decide (1 < ch.DataRates.length))
          then some region else none := by
  induction chs generalizing l with
  | nil =>
    refine ⟨l, rfl, ?_⟩
    intro f
    cases assocGet l f <;> simp
  | cons ch rest ih =>
    simp only [List.foldl_cons]
    by_cases hm : ch.DataRates.length > 1
    · cases hk : assocGet l ch.Frequency with
      | some r0 =>
        have hstep : indexChannel region (some l) ch = some l := by
          simp [indexChannel, hm, mapGet, hk]
        rw [hstep]
        obtain ⟨l', h1, h2⟩ := ih l
        refine ⟨l', h1, ?_⟩
        intro f
        rw [h2 f]
        cases hf : assocGet l f with
        | some r => rfl
        | none =>
          have hne : ch.Frequency ≠ f := by
            intro e; rw [e] at hk; rw [hk] at hf; cases hf
          simp [hne]
      | none =>
        have hstep : indexChannel region (some l) ch = mapSet (some l) ch.Frequency region := by
          simp [indexChannel, hm, mapGet, hk]
        rw [hstep]
        obtain ⟨l0, hl0⟩ := mapSet_isSome l ch.Frequency region
        have hget : ∀ f, assocGet l0 f = if ch.Frequency = f then some region else assocGet l f := by
          intro f
          have := mapGet_mapSet l ch.Frequency f region
          rw [hl0] at this
          simpa [mapGet] using this
        rw [hl0]
        obtain ⟨l', h1, h2⟩ := ih l0
        refine ⟨l', h1, ?_⟩
        intro f
        rw [h2 f, hget f]
        by_cases hf : ch.Frequency = f
        · subst hf
          have hm' : 1 < ch.DataRates.length := hm
          simp [hk, hm']
        · simp [hf]
    · have hstep : indexChannel region (some l) ch = some l := by
        simp [indexChannel, hm]
      rw [hstep]
      obtain ⟨l', h1, h2⟩ := ih l
      refine ⟨l', h1, ?_⟩
      intro f
      rw [h2 f]
      have hm' : ¬ 1 < ch.DataRates.length := hm
      simp [hm']

/-! ## The outer loop of InitializeTables -/

/-- One region of the outer loop, run on allocated tables whose registry has no entry
for the region yet: the plan of the `switch` statement is stored, and its uplink
channels are indexed. -/
theorem initRegion_fresh (env : Env) (r : PbFrequencyPlan) (fl : List (String × FrequencyPlan))
    (cl : List (Int × String)) (once : Bool) (hfresh : assocGet fl r.String = none) :
    ∃ fl' cl', initRegion env ⟨some fl, some cl, once⟩ r = ⟨some fl', some cl', once⟩ ∧
      (∀ name, assocGet fl' name =
        if r.String = name then some (buildPlan env r.String).1 else assocGet fl name) ∧
      (∀ f, assocGet cl' f =
        match assocGet cl f with
        | some region => some region
        | none => if hasMultiRate (buildPlan env r.String).1 f then some r.String else none) := by
  have hget : Get env (some fl) r.String = buildPlan env r.String := by
    simp [Get, mapGet, hfresh]
  obtain ⟨fl', hfl'⟩ := mapSet_isSome fl r.String (buildPlan env r.String).1
  have hlook : ∀ name, assocGet fl' name =
      if r.String = name then some (buildPlan env r.String).1 else assocGet fl name := by
    intro name
    have := mapGet_mapSet fl r.String name (buildPlan env r.String).1
    rw [hfl'] at this
    simpa [mapGet] using this
  obtain ⟨cl', hcl', hcl⟩ := indexChannel_foldl r.String (buildPlan env r.String).1.UplinkChannels cl
  refine ⟨fl', cl', ?_, hlook, ?_⟩
  · simp only [initRegion, hget, hfl', mapGet, hlook, if_true, Option.getD_some, hcl']
  · intro f
    rw [hcl f]
    rfl

/-- The outer loop over a list of regions with distinct names, run on allocated tables
whose registry has no entry for any of them: every region of the list gets the plan
of the `switch` statement, and a frequency that was not yet a key of the index gets
the first region of the list that has it on a multi-rate uplink channel. -/
theorem initRegion_foldl (env : Env) (rs : List PbFrequencyPlan)
    (hnd : (rs.map PbFrequencyPlan.String).Nodup)
    (fl : List (String × FrequencyPlan)) (cl : List (Int × String)) (once : Bool)
    (hfresh : ∀ r ∈ rs, assocGet fl r.String = none) :
    ∃ fl' cl', rs.foldl (initRegion env) ⟨some fl, some cl, once⟩ = ⟨some fl', some cl', once⟩ ∧
      (∀ name, assocGet fl' name =
        if name ∈ rs.map PbFrequencyPlan.String then some (buildPlan env name).1
        else assocGet fl name) ∧
      (∀ f, assocGet cl' f =
        match assocGet cl f with
        | some region => some region
        | none => (firstClaimant env rs f).map PbFrequencyPlan.String) := by
  induction rs generalizing fl cl with
  | nil =>
    refine ⟨fl, cl, rfl, ?_, ?_⟩
    · intro name; simp
    · intro f
      cases assocGet cl f <;> simp [firstClaimant]
  | cons r rest ih =>
    rw [List.map_cons, List.nodup_cons] at hnd
    obtain ⟨fl0, cl0, hstep, hfl0, hcl0⟩ :=
      initRegion_fresh env r fl cl once (hfresh r (List.mem_cons_self _ _))
    have hfresh0 : ∀ r' ∈ rest, assocGet fl0 r'.String = none := by
      intro r' hr'
      have hne : r.String ≠ r'.String := by
        intro e
        exact hnd.1 (e ▸ List.mem_map_of_mem _ hr')
      rw [hfl0, if_neg hne]
      exact hfresh r' (List.mem_cons_of_mem _ hr')
    obtain ⟨fl', cl', hfold, hfl', hcl'⟩ := ih hnd.2 fl0 cl0 hfresh0
    refine ⟨fl', cl', ?_, ?_, ?_⟩
    · rw [List.foldl_cons, hstep, hfold]
    · intro name
      rw [hfl' name, hfl0 name]
      by_cases h1 : name ∈ rest.map PbFrequencyPlan.String
      · simp [h1]
      · by_cases h2 : r.String = name
        · subst h2; simp
        · have h3 : ¬ name = r.String := fun e => h2 e.symm
          simp [h1, h2, h3]
    · intro f
      rw [hcl' f, hcl0 f]
      cases assocGet cl f with
      | some region => rfl
      | none =>
        by_cases hm : hasMultiRate (buildPlan env r.String).1 f = true
        · simp [firstClaimant, hm]
        · simp [firstClaimant, hm]

/-! ## The tables after the first InitializeTables -/

/-- The twelve region names of the declared order are pairwise different. -/
theorem regionOrder_names_nodup : (regionOrder.map PbFrequencyPlan.String).Nodup := by
  decide

/-- Every value of the enumeration occurs in the declared order. -/
theorem mem_regionOrder (r : PbFrequencyPlan) : r ∈ regionOrder := by
  cases r <;> decide

/-- The first call of `InitializeTables`: both tables are allocated, the registry
holds, for each of the twelve names, the plan of the `switch` statement of `Get`, and
the index holds for each frequency the first region claiming it. -/
theorem initializeTables_first (env : Env) (s : State) (h : s.initializeOnce = false) :
    ∃ fl cl, InitializeTables env s = ⟨some fl, some cl, true⟩ ∧
      (∀ name, assocGet fl name =
        if name ∈ regionOrder.map PbFrequencyPlan.String then some (buildPlan env name).1
        else none) ∧
      (∀ f, assocGet cl f = (firstClaimant env regionOrder f).map PbFrequencyPlan.String) := by
  obtain ⟨fl, cl, h1, h2, h3⟩ :=
    initRegion_foldl env regionOrder regionOrder_names_nodup [] [] true (fun _ _ => rfl)
  refine ⟨fl, cl, ?_, ?_, ?_⟩
  · simp only [InitializeTables, h, Bool.false_eq_true, if_false]
    exact h1
  · intro name
    rw [h2 name]
    rfl
  · intro f
    rw [h3 f]
    rfl

/-- After the first `InitializeTables` the plan stored for a region is the plan the
`switch` statement of `Get` yields for its name. -/
theorem storedPlan_initializeTables (env : Env) (r : PbFrequencyPlan) :
    storedPlan (InitializeTables env State.initial) r = (buildPlan env r.String).1 := by
  obtain ⟨fl, cl, h1, h2, _⟩ := initializeTables_first env State.initial rfl
  have hmem : r.String ∈ regionOrder.map PbFrequencyPlan.String :=
    List.mem_map_of_mem _ (mem_regionOrder r)
  simp only [storedPlan, h1, mapGet, h2, hmem, if_true, Option.getD_some]

/-- After the first `InitializeTables` the index holds, for each frequency, the name
of the first region of the declared order whose stored plan has a multi-rate uplink
channel of that frequency. -/
theorem channels_initializeTables (env : Env) (f : Int) :
    mapGet (InitializeTables env State.initial).channels f =
      (regionOrder.find? (fun r =>
        hasMultiRate (storedPlan (InitializeTables env State.initial) r) f)).map
        PbFrequencyPlan.String := by
  obtain ⟨fl, cl, h1, _, h3⟩ := initializeTables_first env State.initial rfl
  have hfun : (fun r => hasMultiRate (storedPlan (InitializeTables env State.initial) r) f) =
      (fun r => hasMultiRate (buildPlan env r.String).1 f) := by
    funext r
    rw [storedPlan_initializeTables]
  rw [hfun]
  simp only [h1, mapGet, h3]
  rfl

/-- The result of `find?` is the first element, by position, that satisfies the
predicate. -/
theorem find?_eq_some_position {α : Type} (p : α → Bool) (l : List α) (a : α) :
    l.find? p = some a ↔
      ∃ i : Nat, l[i]? = some a ∧ p a = true ∧
        ∀ (j : Nat) (b : α), j < i → l[j]? = some b → p b = false := by
  induction l with
  | nil => simp
  | cons x rest ih =>
    by_cases hx : p x = true
    · rw [List.find?_cons_of_pos _ hx]
      constructor
      · intro h
        cases h
        exact ⟨0, by simp, hx, fun j b hj => absurd hj (Nat.not_lt_zero j)⟩
      · rintro ⟨i, hi, _, hmin⟩
        cases i with
        | zero => simpa using hi
        | succ i =>
          have := hmin 0 x (Nat.succ_pos i) (by simp)
          rw [hx] at this
          cases this
    · rw [List.find?_cons_of_neg _ hx, ih]
      have hx' : p x = false := by simpa using hx
      constructor
      · rintro ⟨i, hi, hp, hmin⟩
        refine ⟨i + 1, by simpa using hi, hp, ?_⟩
        intro j b hj hb
        cases j with
        | zero =>
          have : x = b := by simpa using hb
          rw [← this]; exact hx'
        | succ j => exact hmin j b (by omega) (by simpa using hb)
      · rintro ⟨i, hi, hp, hmin⟩
        cases i with
        | zero =>
          have : x = a := by simpa using hi
          rw [this] at hx
          exact absurd hp hx
        | succ i =>
          refine ⟨i, by simpa using hi, hp, ?_⟩
          intro j b hj hb
          exact hmin (j + 1) b (by omega) (by simpa using hb)

/-! ## The Channel Index (C3, C4, C5) -/

/-- C4: after the first `InitializeTables` the Channel Index is the first-writer-wins
table over multi-rate channels.  The index maps frequency `f` to `name` if and only
if `name` is the name of the earliest region of the declared order whose stored plan
has an uplink channel of frequency `f` permitting more than one data rate; and `f` is
not a key if and only if no region's stored plan has such a channel (so a frequency
found only on single-rate channels, or on none, is not a key). -/
theorem channelIndex_first_writer_wins (env : Env) (f : Int) (name : String) :
    (mapGet (InitializeTables env State.initial).channels f = some name ↔
      ∃ (i : Nat) (r : PbFrequencyPlan), regionOrder[i]? = some r ∧ r.String = name ∧
        hasMultiRate (storedPlan (InitializeTables env State.initial) r) f = true ∧
        ∀ (j : Nat) (r' : PbFrequencyPlan), j < i → regionOrder[j]? = some r' →
          hasMultiRate (storedPlan (InitializeTables env State.initial) r') f = false) ∧
    (mapGet (InitializeTables env State.initial).channels f = none ↔
      ∀ r, hasMultiRate (storedPlan (InitializeTables env State.initial) r) f = false) := by
  rw [channels_initializeTables]
  constructor
  · rw [Option.map_eq_some']
    constructor
    · rintro ⟨r, hr, hname⟩
      obtain ⟨i, hi, hp, hmin⟩ := (find?_eq_some_position _ _ _).1 hr
      exact ⟨i, r, hi, hname, hp, hmin⟩
    · rintro ⟨i, r, hi, hname, hp, hmin⟩
      exact ⟨r, (find?_eq_some_position _ _ _).2 ⟨i, hi, hp, hmin⟩, hname⟩
  · rw [Option.map_eq_none', List.find?_eq_none]
    constructor
    · intro h r
      simpa using h r (mem_regionOrder r)
    · intro h r _
      simp [h r]

set_option maxRecDepth 100000 in
/-- The index of the sample environment at 922100000: the frequency is claimed by
KR_920_923, the first region with a multi-rate channel there. -/
theorem sample_channels_922100000 :
    mapGet (InitializeTables sampleEnv State.initial).channels 922100000 =
      some "KR_920_923" := by
  obtain ⟨fl, cl, h1, _, h3⟩ := initializeTables_first sampleEnv State.initial rfl
  simp only [h1, mapGet, h3]
  decide

/-- Counterexample to C3 as stated: in the sample environment the frequency 922100000
occurs among the uplink channels of AS_920_923 (position 6, on a single-rate channel)
and of KR_920_923 (position 8), yet the index maps it to KR_920_923, the later of the
two; so "every frequency shared by two regions is mapped to the earlier one" fails. -/
theorem channelIndex_earlier_region_counterexample :
    ¬ (∀ (X : Int) (i j : Nat) (r1 r2 : PbFrequencyPlan), i < j →
        regionOrder[i]? = some r1 → regionOrder[j]? = some r2 →
        hasChannel (storedPlan (InitializeTables sampleEnv State.initial) r1) X = true →
        hasChannel (storedPlan (InitializeTables sampleEnv State.initial) r2) X = true →
        mapGet (InitializeTables sampleEnv State.initial).channels X = some r1.String) := by
  intro h
  have h1 : hasChannel (storedPlan (InitializeTables sampleEnv State.initial)
      PbFrequencyPlan.AS_920_923) 922100000 = true := by
    rw [storedPlan_initializeTables]; decide
  have h2 : hasChannel (storedPlan (InitializeTables sampleEnv State.initial)
      PbFrequencyPlan.KR_920_923) 922100000 = true := by
    rw [storedPlan_initializeTables]; decide
  have h3 := h 922100000 6 8 PbFrequencyPlan.AS_920_923 PbFrequencyPlan.KR_920_923
    (by decide) rfl rfl h1 h2
  rw [sample_channels_922100000] at h3
  revert h3
  decide

/-- Amended C3: after the first `InitializeTables`, for every frequency `X` that occurs
on a multi-rate uplink channel of the stored plans of two different regions, the
index maps `X` to the earliest region of the declared order that has `X` on a
multi-rate uplink channel: a region at or before the earlier of the two, never the
later of the two, and the earlier of the two itself when no region before it has `X`
on a multi-rate channel. -/
theorem channelIndex_earlier_multiRate (env : Env) (X : Int) (i j : Nat)
    (r1 r2 : PbFrequencyPlan) (hij : i < j)
    (h1 : regionOrder[i]? = some r1) (h2 : regionOrder[j]? = some r2)
    (hm1 : hasMultiRate (storedPlan (InitializeTables env State.initial) r1) X = true)
    (hm2 : hasMultiRate (storedPlan (InitializeTables env State.initial) r2) X = true) :
    (∃ (k : Nat) (r : PbFrequencyPlan), k ≤ i ∧ regionOrder[k]? = some r ∧
      mapGet (InitializeTables env State.initial).channels X = some r.String ∧
      hasMultiRate (storedPlan (InitializeTables env State.initial) r) X = true ∧
      ∀ (k' : Nat) (r' : PbFrequencyPlan), k' < k → regionOrder[k']? = some r' →
        hasMultiRate (storedPlan (InitializeTables env State.initial) r') X = false) ∧
    mapGet (InitializeTables env State.initial).channels X ≠ some r2.String ∧
    ((∀ (k : Nat) (r : PbFrequencyPlan), k < i → regionOrder[k]? = some r →
        hasMultiRate (storedPlan (InitializeTables env State.initial) r) X = false) →
      mapGet (InitializeTables env State.initial).channels X = some r1.String) := by
  have _hm2 := hm2
  rw [channels_initializeTables]
  cases hfind : regionOrder.find? (fun r =>
      hasMultiRate (storedPlan (InitializeTables env State.initial) r) X) with
  | none =>
    have := List.find?_eq_none.1 hfind r1 (mem_regionOrder r1)
    exact absurd hm1 this
  | some r =>
    obtain ⟨k, hk, hp, hmin⟩ := (find?_eq_some_position _ _ _).1 hfind
    have hki : k ≤ i := by
      by_contra hlt
      have := hmin i r1 (by omega) h1
      rw [hm1] at this
      cases this
    refine ⟨⟨k, r, hki, hk, rfl, hp, hmin⟩, ?_, ?_⟩
    · intro hname
      have hname' : r.String = r2.String := by simpa using hname
      have hjlen : j < (regionOrder.map PbFrequencyPlan.String).length := by
        rw [List.length_map]
        exact (List.getElem?_eq_some.1 h2).1
      have hne := List.nodup_iff_getElem?_ne_getElem?.1 regionOrder_names_nodup k j
        (by omega) hjlen
      apply hne
      rw [List.getElem?_map, List.getElem?_map, hk, h2]
      simp [hname']
    · intro hnone
      have hik : k = i := by
        by_contra hne
        have := hnone k r (by omega) hk
        rw [hp] at this
        cases this
      subst hik
      rw [hk] at h1
      cases h1
      rfl

set_option maxRecDepth 100000 in
/-- Witness for the amended C3: in the sample environment 923200000 is a multi-rate
uplink frequency of AS_923 (position 5) and of AS_920_923 (position 6). -/
theorem channelIndex_earlier_multiRate_witness :
    (∃ (k : Nat) (r : PbFrequencyPlan), k ≤ 5 ∧ regionOrder[k]? = some r ∧
      mapGet (InitializeTables sampleEnv State.initial).channels 923200000 = some r.String ∧
      hasMultiRate (storedPlan (InitializeTables sampleEnv State.initial) r) 923200000 = true ∧
      ∀ (k' : Nat) (r' : PbFrequencyPlan), k' < k → regionOrder[k']? = some r' →
        hasMultiRate (storedPlan (InitializeTables sampleEnv State.initial) r') 923200000
          = false) ∧
    mapGet (InitializeTables sampleEnv State.initial).channels 923200000 ≠
      some PbFrequencyPlan.AS_920_923.String ∧
    ((∀ (k : Nat) (r : PbFrequencyPlan), k < 5 → regionOrder[k]? = some r →
        hasMultiRate (storedPlan (InitializeTables sampleEnv State.initial) r) 923200000
          = false) →
      mapGet (InitializeTables sampleEnv State.initial).channels 923200000 =
        some PbFrequencyPlan.AS_923.String) :=
  channelIndex_earlier_multiRate sampleEnv 923200000 5 6 PbFrequencyPlan.AS_923
    PbFrequencyPlan.AS_920_923 (by decide) rfl rfl
    (by rw [storedPlan_initializeTables]; decide)
    (by rw [storedPlan_initializeTables]; decide)

/-- The sub-band loop changes neither the frequency nor the data rates of a channel,
so it does not change where the channel list has multi-rate channels. -/
theorem multiRateAt_fsbLoop (fsb : Int) (b : Band) (f : Int) :
    multiRateAt (fsbLoop fsb b).UplinkChannels f = multiRateAt b.UplinkChannels f := by
  rw [fsbLoop_uplink, Bool.eq_iff_iff]
  simp only [multiRateAt, List.any_eq_true]
  constructor
  · rintro ⟨ch, hmem, hp⟩
    obtain ⟨i, hi⟩ := List.mem_iff_getElem?.1 hmem
    rw [List.getElem?_mapIdx] at hi
    cases hb : b.UplinkChannels[i]? with
    | none => rw [hb] at hi; cases hi
    | some ch0 =>
      rw [hb] at hi
      simp only [Option.map_some', Option.some.injEq] at hi
      refine ⟨ch0, List.mem_iff_getElem?.2 ⟨i, hb⟩, ?_⟩
      rw [← hi] at hp
      split at hp <;> exact hp
  · rintro ⟨ch0, hmem, hp⟩
    obtain ⟨i, hi⟩ := List.mem_iff_getElem?.1 hmem
    refine ⟨if decide (i < 72) && fsbDisables fsb i then { ch0 with deactivated := true } else ch0,
      List.mem_iff_getElem?.2 ⟨i, ?_⟩, ?_⟩
    · rw [List.getElem?_mapIdx, hi]; rfl
    · split <;> exact hp

/-- C5: after the first `InitializeTables`, `Guess 868100000` is "EU_863_870" (a
multi-rate channel of the EU overlay, EU_863_870 being first in the order), and
`Guess 868800000` is the empty string: the EU channel at 868800000 permits only data
rate 7 and is not indexed, and - this is the assumption on the band library - no base
configuration other than the replaced EU one has a multi-rate uplink channel at that
frequency. -/
theorem guess_EU_channels (env : Env)
    (hbase : ∀ (name : BandName) (dt : DwellTime), name ≠ BandName.EU_863_870 →
      multiRateAt (env.GetConfig name false dt).1.UplinkChannels 868800000 = false) :
    Guess (InitializeTables env State.initial).channels 868100000 = "EU_863_870" ∧
    Guess (InitializeTables env State.initial).channels 868800000 = "" := by
  obtain ⟨fl, cl, h1, _, h3⟩ := initializeTables_first env State.initial rfl
  have hw1 : wrapInt64 (868100000 : Int) = 868100000 := by decide
  have hw2 : wrapInt64 (868800000 : Int) = 868800000 := by decide
  constructor
  · have hEU : firstClaimant env regionOrder 868100000 = some PbFrequencyPlan.EU_863_870 := by
      simp [firstClaimant, regionOrder, buildPlan, PbFrequencyPlan.String, hasMultiRate,
        multiRateAt, mkChannel]
    simp [Guess, h1, mapGet, hw1, h3, hEU, PbFrequencyPlan.String]
  · have hnone : firstClaimant env regionOrder 868800000 = none := by
      unfold firstClaimant
      rw [List.find?_eq_none]
      intro r _
      cases r <;>
        simp [buildPlan, PbFrequencyPlan.String, hasMultiRate, multiRateAt_fsbLoop, hbase] <;>
        simp [multiRateAt, mkChannel]
    simp [Guess, h1, mapGet, hw2, h3, hnone]

set_option maxRecDepth 100000 in
/-- Witness for C5: the sample configuration source has no multi-rate uplink channel
at 868800000 outside the EU band. -/
theorem guess_EU_channels_witness :
    Guess (InitializeTables sampleEnv State.initial).channels 868100000 = "EU_863_870" ∧
    Guess (InitializeTables sampleEnv State.initial).channels 868800000 = "" :=
  guess_EU_channels sampleEnv (by
    intro name dt _
    cases name <;> cases dt <;> decide)

/-! ## Unknown region names (C10) -/

/-- For a name outside the twelve canonical names the `switch` statement of `Get`
takes its default case. -/
theorem buildPlan_unknown (env : Env) (region : String)
    (h : region ∉ regionOrder.map PbFrequencyPlan.String) :
    buildPlan env region =
      (FrequencyPlan.zero, some (Error.ErrInvalidArgument "Frequency Band" "unknown")) := by
  simp only [regionOrder, List.map_cons, List.map_nil, List.mem_cons, List.mem_nil_iff,
    or_false, not_or] at h
  obtain ⟨e1, e2, e3, e4, e5, e6, e7, e8, e9, e10, e11, e12⟩ := h
  simp only [buildPlan, e1, e2, e3, e4, e5, e6, e7, e8, e9, e10, e11, e12, if_false]

/-- In every reachable state the registry has no key outside the twelve canonical
names. -/
theorem registry_keys_canonical (s : State) (hs : Reachable s) (name : String)
    (h : name ∉ regionOrder.map PbFrequencyPlan.String) :
    mapGet s.frequencyPlans name = none := by
  induction hs with
  | start => rfl
  | init env s _ ih =>
    by_cases ho : s.initializeOnce = true
    · simp only [InitializeTables, ho, if_true]
      exact ih
    · have ho' : s.initializeOnce = false := by simpa using ho
      obtain ⟨fl, cl, h1, h2, _⟩ := initializeTables_first env s ho'
      simp only [h1, mapGet, h2, h, if_false]

/-- C10: for every region name that is not one of the twelve canonical names, in every
reachable state of the registry (before `InitializeTables` and after it) and whatever
the external collaborators return, the registry has no entry under that name and
`Get` fails with the invalid-argument error "Frequency Band" / "unknown" (returning
the zero plan). -/
theorem get_unknown_region (env : Env) (s : State) (hs : Reachable s) (region : String)
    (h : region ∉ regionOrder.map PbFrequencyPlan.String) :
    mapGet s.frequencyPlans region = none ∧
    Get env s.frequencyPlans region =
      (FrequencyPlan.zero, some (Error.ErrInvalidArgument "Frequency Band" "unknown")) := by
  refine ⟨registry_keys_canonical s hs region h, ?_⟩
  simp only [Get, registry_keys_canonical s hs region h, buildPlan_unknown env region h]

/-- Witness for C10: "not-a-region" before initialization and the empty name after
it. -/
theorem get_unknown_region_witness :
    Get sampleEnv State.initial.frequencyPlans "not-a-region" =
      (FrequencyPlan.zero, some (Error.ErrInvalidArgument "Frequency Band" "unknown")) ∧
    Get sampleEnv (InitializeTables sampleEnv State.initial).frequencyPlans "" =
      (FrequencyPlan.zero, some (Error.ErrInvalidArgument "Frequency Band" "unknown")) :=
  ⟨(get_unknown_region sampleEnv State.initial Reachable.start "not-a-region" (by decide)).2,
   (get_unknown_region sampleEnv (InitializeTables sampleEnv State.initial)
     (Reachable.init sampleEnv State.initial Reachable.start) "" (by decide)).2⟩

/-! ## The reachable states -/

/-- After a call of `InitializeTables` the `sync.Once` has run. -/
theorem initializeTables_once (env : Env) (s : State) :
    (InitializeTables env s).initializeOnce = true := by
  by_cases ho : s.initializeOnce = true
  · simp only [InitializeTables, ho, if_true]
  · have ho' : s.initializeOnce = false := by simpa using ho
    obtain ⟨fl, cl, h1, _, _⟩ := initializeTables_first env s ho'
    rw [h1]

/-- Once the `sync.Once` has run, `InitializeTables` returns the state it was given. -/
theorem initializeTables_of_once (env : Env) (s : State) (h : s.initializeOnce = true) :
    InitializeTables env s = s := by
  simp only [InitializeTables, h, if_true]

/-- A reachable state is the start state or the state after the first
`InitializeTables`, under the environment of that first call. -/
theorem reachable_cases (s : State) (hs : Reachable s) :
    s = State.initial ∨ ∃ env0, s = InitializeTables env0 State.initial := by
  induction hs with
  | start => exact Or.inl rfl
  | init env s _ ih =>
    rcases ih with h | ⟨env0, h⟩
    · exact Or.inr ⟨env, by rw [h]⟩
    · refine Or.inr ⟨env0, ?_⟩
      rw [initializeTables_of_once env s (by rw [h]; exact initializeTables_once _ _)]
      exact h

/-- On the start state `Get` runs the `switch` statement. -/
theorem get_initial (env : Env) (region : String) :
    Get env State.initial.frequencyPlans region = buildPlan env region := rfl

/-- After the first `InitializeTables` (under `env0`), `Get` for a canonical name
returns the plan stored by that call, with a nil error, whatever the environment of
the later call. -/
theorem get_after_init (env0 env : Env) (r : PbFrequencyPlan) :
    Get env (InitializeTables env0 State.initial).frequencyPlans r.String =
      ((buildPlan env0 r.String).1, none) := by
  obtain ⟨fl, cl, h1, h2, _⟩ := initializeTables_first env0 State.initial rfl
  have hmem : r.String ∈ regionOrder.map PbFrequencyPlan.String :=
    List.mem_map_of_mem _ (mem_regionOrder r)
  simp only [Get, h1, mapGet, h2, hmem, if_true]

/-- The error of the `switch` statement for a canonical name is the error of the
band library call of that region. -/
theorem buildPlan_error (env : Env) (r : PbFrequencyPlan) :
    (buildPlan env r.String).2 = (sourceResult env r).2 := by
  cases r <;> simp [buildPlan, PbFrequencyPlan.String, sourceResult]

/-! ## Idempotence of InitializeTables (C15) -/

/-- C15: `InitializeTables` is idempotent on the explicit state (registry, index and
once-flag): after a first call, any number of further calls - under whatever
environments, so also when the source results or the options differ between the
calls - leave the state as the first call left it; in particular a second call
changes nothing. -/
theorem initializeTables_idempotent (env0 : Env) (envs : List Env) (s : State) :
    initializeRepeatedly (env0 :: envs) s = InitializeTables env0 s ∧
    ∀ env1, InitializeTables env1 (InitializeTables env0 s) = InitializeTables env0 s := by
  have h2 : ∀ env1, InitializeTables env1 (InitializeTables env0 s) = InitializeTables env0 s :=
    fun env1 => initializeTables_of_once env1 _ (initializeTables_once env0 s)
  refine ⟨?_, h2⟩
  simp only [initializeRepeatedly, List.foldl_cons]
  induction envs with
  | nil => rfl
  | cons e rest ih => rw [List.foldl_cons, h2 e]; exact ih

/-! ## Get and the shared tables (C14) -/

/-- C14: `Get` never changes the shared tables.  For every region name and every
state, the state after the call (registry, index, once-flag) is the state before it;
when the registry holds an entry for the name, `Get` returns exactly that plan with a
nil error; and when it holds none, `Get` returns what the `switch` statement builds
and the registry still has no entry for the name afterwards, so that a later call
builds again (under the environment of that later call). -/
theorem get_frame (env : Env) (s : State) (region : String) :
    (GetStep env s region).2 = s ∧
    (GetStep env s region).2.frequencyPlans = s.frequencyPlans ∧
    (GetStep env s region).2.channels = s.channels ∧
    (∀ fp, mapGet s.frequencyPlans region = some fp → (GetStep env s region).1 = (fp, none)) ∧
    (mapGet s.frequencyPlans region = none →
      (GetStep env s region).1 = buildPlan env region ∧
      mapGet (GetStep env s region).2.frequencyPlans region = none ∧
      ∀ env1, (GetStep env1 (GetStep env s region).2 region).1 = buildPlan env1 region) := by
  refine ⟨rfl, rfl, rfl, ?_, ?_⟩
  · intro fp h
    simp only [GetStep, Get, h]
  · intro h
    refine ⟨?_, h, ?_⟩
    · simp only [GetStep, Get, h]
    · intro env1
      simp only [GetStep, Get, h]

/-! ## Failed builds and the registry (C11, C12, C13) -/

/-- After the first `InitializeTables` the registry has an entry for every canonical
name: the plan the `switch` statement of `Get` yielded, whatever its error was. -/
theorem registry_after_init (env : Env) (r : PbFrequencyPlan) :
    mapGet (InitializeTables env State.initial).frequencyPlans r.String =
      some (buildPlan env r.String).1 := by
  obtain ⟨fl, cl, h1, h2, _⟩ := initializeTables_first env State.initial rfl
  have hmem : r.String ∈ regionOrder.map PbFrequencyPlan.String :=
    List.mem_map_of_mem _ (mem_regionOrder r)
  simp only [h1, mapGet, h2, hmem, if_true]

/-- The index of the failing environment at 868100000: EU_863_870, whose build failed,
still claims the frequency of its overlay. -/
theorem failing_channels_868100000 :
    mapGet (InitializeTables failingEnv State.initial).channels 868100000 =
      some "EU_863_870" := by
  obtain ⟨fl, cl, h1, _, h3⟩ := initializeTables_first failingEnv State.initial rfl
  simp only [h1, mapGet, h3]
  decide

/-- Counterexample to C11 as stated: in the failing environment the build of
EU_863_870 fails, yet after `InitializeTables` the registry has an entry for
"EU_863_870" and the index maps 868100000 to "EU_863_870". -/
theorem initializeTables_failed_region_counterexample :
    ¬ (∀ r : PbFrequencyPlan, (sourceResult failingEnv r).2 ≠ none →
        mapGet (InitializeTables failingEnv State.initial).frequencyPlans r.String = none ∧
        ∀ f, mapGet (InitializeTables failingEnv State.initial).channels f ≠ some r.String) := by
  intro h
  have h1 := (h PbFrequencyPlan.EU_863_870 (by decide)).2 868100000
  exact h1 failing_channels_868100000

/-- Amended C11: during `InitializeTables` the error of a build is discarded and the
plan `Get` returned is stored all the same.  For a region whose build fails, the
registry has after the initialization an entry under its name (the plan of the
`switch` statement: the band the source returned, with the overlay of the region);
the multi-rate uplink frequencies of that plan that no earlier region claims are
mapped to the region by the index; and every other region has its entry too (the
failure does not abort the initialization). -/
theorem initializeTables_stores_failed (env : Env) (r : PbFrequencyPlan)
    (hfail : (sourceResult env r).2 ≠ none) :
    mapGet (InitializeTables env State.initial).frequencyPlans r.String =
      some (buildPlan env r.String).1 ∧
    (∀ (i : Nat) (f : Int), regionOrder[i]? = some r →
      hasMultiRate (buildPlan env r.String).1 f = true →
      (∀ (j : Nat) (r' : PbFrequencyPlan), j < i → regionOrder[j]? = some r' →
        hasMultiRate (storedPlan (InitializeTables env State.initial) r') f = false) →
      mapGet (InitializeTables env State.initial).channels f = some r.String) ∧
    (∀ r' : PbFrequencyPlan,
      mapGet (InitializeTables env State.initial).frequencyPlans r'.String =
        some (buildPlan env r'.String).1) := by
  have _hfail := hfail
  refine ⟨registry_after_init env r, ?_, fun r' => registry_after_init env r'⟩
  intro i f hi hm hmin
  rw [channels_initializeTables]
  have hfind : regionOrder.find? (fun r =>
      hasMultiRate (storedPlan (InitializeTables env State.initial) r) f) = some r := by
    rw [find?_eq_some_position]
    exact ⟨i, hi, by rw [storedPlan_initializeTables]; exact hm, hmin⟩
  rw [hfind]
  rfl

/-- Witness for the amended C11: EU_863_870 in the failing environment. -/
theorem initializeTables_stores_failed_witness :
    mapGet (InitializeTables failingEnv State.initial).frequencyPlans
        PbFrequencyPlan.EU_863_870.String =
      some (buildPlan failingEnv PbFrequencyPlan.EU_863_870.String).1 :=
  (initializeTables_stores_failed failingEnv PbFrequencyPlan.EU_863_870 (by decide)).1

/-- Counterexample to C12 as stated: in the failing environment the source fails for
EU_863_870, yet after `InitializeTables` the call `Get("EU_863_870")` returns a nil
error. -/
theorem get_source_error_counterexample :
    ¬ (∀ s : State, Reachable s → ∀ (r : PbFrequencyPlan) (e : Error),
        (sourceResult failingEnv r).2 = some e →
        (Get failingEnv s.frequencyPlans r.String).2 = some e) := by
  intro h
  have h1 := h (InitializeTables failingEnv State.initial)
    (Reachable.init failingEnv State.initial Reachable.start) PbFrequencyPlan.EU_863_870
    (Error.library "lorawan/band: band is undefined") rfl
  rw [get_after_init] at h1
  cases h1

/-- Amended C12: for every canonical region name and every reachable state, either no
`InitializeTables` has run yet, and then the error of `Get` is exactly the error of
the Band Configuration Source for that region (so a failure `e` of the source is the
failure of `Get`); or `InitializeTables` has run, and then `Get` returns the plan
stored by its first call with a nil error, whatever the source returns now. -/
theorem get_source_error (env : Env) (s : State) (hs : Reachable s) (r : PbFrequencyPlan) :
    (s = State.initial ∧
      (Get env s.frequencyPlans r.String).2 = (sourceResult env r).2) ∨
    (∃ env0, s = InitializeTables env0 State.initial ∧
      Get env s.frequencyPlans r.String = ((buildPlan env0 r.String).1, none)) := by
  rcases reachable_cases s hs with h | ⟨env0, h⟩
  · left
    refine ⟨h, ?_⟩
    rw [h, get_initial, buildPlan_error]
  · right
    refine ⟨env0, h, ?_⟩
    rw [h, get_after_init]

/-- Witness for the amended C12: the failing environment before and after
`InitializeTables`. -/
theorem get_source_error_witness :
    ((State.initial = State.initial ∧
      (Get failingEnv State.initial.frequencyPlans PbFrequencyPlan.EU_863_870.String).2 =
        (sourceResult failingEnv PbFrequencyPlan.EU_863_870).2) ∨
    (∃ env0, State.initial = InitializeTables env0 State.initial ∧
      Get failingEnv State.initial.frequencyPlans PbFrequencyPlan.EU_863_870.String =
        ((buildPlan env0 PbFrequencyPlan.EU_863_870.String).1, none))) ∧
    ((InitializeTables failingEnv State.initial = State.initial ∧
      (Get failingEnv (InitializeTables failingEnv State.initial).frequencyPlans
        PbFrequencyPlan.EU_863_870.String).2 =
        (sourceResult failingEnv PbFrequencyPlan.EU_863_870).2) ∨
    (∃ env0, InitializeTables failingEnv State.initial = InitializeTables env0 State.initial ∧
      Get failingEnv (InitializeTables failingEnv State.initial).frequencyPlans
        PbFrequencyPlan.EU_863_870.String =
        ((buildPlan env0 PbFrequencyPlan.EU_863_870.String).1, none))) :=
  ⟨get_source_error failingEnv State.initial Reachable.start PbFrequencyPlan.EU_863_870,
   get_source_error failingEnv (InitializeTables failingEnv State.initial)
     (Reachable.init failingEnv State.initial Reachable.start) PbFrequencyPlan.EU_863_870⟩

/-- The sub-band loop changes the uplink channels only. -/
theorem fsbLoop_eq (fsb : Int) (b : Band) :
    fsbLoop fsb b =
      { b with UplinkChannels := (b.UplinkChannels.mapIdx
          (fun i ch => if decide (i < 72) && fsbDisables fsb i then { ch with deactivated := true }
                       else ch)) } := by
  unfold fsbLoop
  rw [fsbLoop_range]

/-- When the band library call of a region succeeds with non-empty uplink and
downlink lists, the `switch` statement yields a nil error and a plan whose uplink
and downlink lists are non-empty. -/
theorem buildPlan_channels_nonempty (env : Env) (r : PbFrequencyPlan)
    (herr : (sourceResult env r).2 = none)
    (hup : (sourceResult env r).1.UplinkChannels ≠ [])
    (hdown : (sourceResult env r).1.DownlinkChannels ≠ []) :
    (buildPlan env r.String).2 = none ∧
    (buildPlan env r.String).1.UplinkChannels ≠ [] ∧
    (buildPlan env r.String).1.DownlinkChannels ≠ [] := by
  refine ⟨by rw [buildPlan_error]; exact herr, ?_, ?_⟩
  · cases r
    case US_902_928 =>
      have hl : (buildPlan env "US_902_928").1.UplinkChannels.length =
          (sourceResult env PbFrequencyPlan.US_902_928).1.UplinkChannels.length := by
        simp [buildPlan_US, fsbLoop_uplink, sourceResult]
      intro h
      apply hup
      apply List.eq_nil_of_length_eq_zero
      rw [← hl]
      simp [PbFrequencyPlan.String] at h
      simp [h]
    case AU_915_928 =>
      have hl : (buildPlan env "AU_915_928").1.UplinkChannels.length =
          (sourceResult env PbFrequencyPlan.AU_915_928).1.UplinkChannels.length := by
        simp [buildPlan_AU, fsbLoop_uplink, sourceResult]
      intro h
      apply hup
      apply List.eq_nil_of_length_eq_zero
      rw [← hl]
      simp [PbFrequencyPlan.String] at h
      simp [h]
    all_goals simp_all [buildPlan, PbFrequencyPlan.String, sourceResult]
  · cases r
    case US_902_928 =>
      simpa [PbFrequencyPlan.String, buildPlan_US, fsbLoop_eq, sourceResult] using hdown
    case AU_915_928 =>
      simpa [PbFrequencyPlan.String, buildPlan_AU, fsbLoop_eq, sourceResult] using hdown
    all_goals simp_all [buildPlan, PbFrequencyPlan.String, sourceResult]

/-- C13: for every one of the twelve canonical region names, when the Band
Configuration Source succeeds for the region with non-empty uplink and downlink
lists (at the time of the call, and at the time `InitializeTables` ran), `Get`
succeeds (nil error) and returns a plan whose uplink and downlink channel lists are
both non-empty, before `InitializeTables` and after it. -/
theorem get_canonical_nonempty (env0 env : Env) (r : PbFrequencyPlan)
    (h0 : (sourceResult env0 r).2 = none ∧ (sourceResult env0 r).1.UplinkChannels ≠ [] ∧
      (sourceResult env0 r).1.DownlinkChannels ≠ [])
    (h : (sourceResult env r).2 = none ∧ (sourceResult env r).1.UplinkChannels ≠ [] ∧
      (sourceResult env r).1.DownlinkChannels ≠ []) :
    ((Get env State.initial.frequencyPlans r.String).2 = none ∧
      (Get env State.initial.frequencyPlans r.String).1.UplinkChannels ≠ [] ∧
      (Get env State.initial.frequencyPlans r.String).1.DownlinkChannels ≠ []) ∧
    ((Get env (InitializeTables env0 State.initial).frequencyPlans r.String).2 = none ∧
      (Get env (InitializeTables env0 State.initial).frequencyPlans r.String).1.UplinkChannels
        ≠ [] ∧
      (Get env (InitializeTables env0 State.initial).frequencyPlans r.String).1.DownlinkChannels
        ≠ []) := by
  constructor
  · rw [get_initial]
    exact buildPlan_channels_nonempty env r h.1 h.2.1 h.2.2
  · rw [get_after_init]
    have hb := buildPlan_channels_nonempty env0 r h0.1 h0.2.1 h0.2.2
    exact ⟨rfl, hb.2.1, hb.2.2⟩

/-- Witness for C13: the sample source succeeds for US_902_928 with non-empty channel
lists, so `Get("US_902_928")` succeeds with non-empty lists before and after
`InitializeTables`. -/
theorem get_canonical_nonempty_witness :
    ((Get sampleEnv State.initial.frequencyPlans "US_902_928").2 = none ∧
      (Get sampleEnv State.initial.frequencyPlans "US_902_928").1.UplinkChannels ≠ [] ∧
      (Get sampleEnv State.initial.frequencyPlans "US_902_928").1.DownlinkChannels ≠ []) ∧
    ((Get sampleEnv (InitializeTables sampleEnv State.initial).frequencyPlans "US_902_928").2
        = none ∧
      (Get sampleEnv (InitializeTables sampleEnv
        State.initial).frequencyPlans "US_902_928").1.UplinkChannels ≠ [] ∧
      (Get sampleEnv (InitializeTables sampleEnv
        State.initial).frequencyPlans "US_902_928").1.DownlinkChannels ≠ []) :=
  get_canonical_nonempty sampleEnv sampleEnv PbFrequencyPlan.US_902_928
    (by decide) (by decide)

/-! ## The receive-window-2 option of EU_863_870 (C17) -/

/-- The `switch` case of EU_863_870 reads the option `eu-rx2-dr`. -/
theorem buildPlan_EU_rx2 (env : Env) :
    (buildPlan env "EU_863_870").1.RX2DataRate = env.GetInt "eu-rx2-dr" := by
  simp [buildPlan, PbFrequencyPlan.String]

/-- Counterexample to C17 as stated: `InitializeTables` runs while `eu-rx2-dr` is 3,
then the option is set to 5; `Get("EU_863_870")` still returns the stored plan, whose
receive-window-2 data rate is 3. -/
theorem get_EU_rx2_counterexample :
    ¬ (∀ (env : Env) (s : State), Reachable s →
        (Get env s.frequencyPlans "EU_863_870").1.RX2DataRate = env.GetInt "eu-rx2-dr") := by
  intro h
  have h1 := h rx2Env (InitializeTables sampleEnv State.initial)
    (Reachable.init sampleEnv State.initial Reachable.start)
  rw [show ("EU_863_870" : String) = PbFrequencyPlan.EU_863_870.String from rfl,
    get_after_init] at h1
  have h2 : (buildPlan sampleEnv PbFrequencyPlan.EU_863_870.String).1.RX2DataRate = 3 :=
    buildPlan_EU_rx2 sampleEnv
  rw [h2] at h1
  revert h1
  decide

/-- Amended C17: for every value of the option `eu-rx2-dr` in force when
`Get("EU_863_870")` is called and every reachable state, either no `InitializeTables`
has run yet, and then the receive-window-2 data rate of the returned plan is the
value of the option at the call; or `InitializeTables` has run, and then it is the
value the option had when `InitializeTables` first ran (the plan is served from the
registry).  With the option at its default the value is 3. -/
theorem get_EU_rx2 (env : Env) (s : State) (hs : Reachable s) :
    ((s = State.initial ∧
        (Get env s.frequencyPlans "EU_863_870").1.RX2DataRate = env.GetInt "eu-rx2-dr") ∨
      (∃ env0, s = InitializeTables env0 State.initial ∧
        (Get env s.frequencyPlans "EU_863_870").1.RX2DataRate = env0.GetInt "eu-rx2-dr")) ∧
    defaultGetInt "eu-rx2-dr" = 3 := by
  refine ⟨?_, rfl⟩
  rcases reachable_cases s hs with h | ⟨env0, h⟩
  · left
    refine ⟨h, ?_⟩
    rw [h, get_initial, buildPlan_EU_rx2]
  · right
    refine ⟨env0, h, ?_⟩
    rw [h, show ("EU_863_870" : String) = PbFrequencyPlan.EU_863_870.String from rfl,
      get_after_init]
    exact buildPlan_EU_rx2 env0

/-- Witness for the amended C17: the option set to 5 before any initialization. -/
theorem get_EU_rx2_witness :
    ((State.initial = State.initial ∧
        (Get rx2Env State.initial.frequencyPlans "EU_863_870").1.RX2DataRate =
          rx2Env.GetInt "eu-rx2-dr") ∨
      (∃ env0, State.initial = InitializeTables env0 State.initial ∧
        (Get rx2Env State.initial.frequencyPlans "EU_863_870").1.RX2DataRate =
          env0.GetInt "eu-rx2-dr")) ∧
    defaultGetInt "eu-rx2-dr" = 3 :=
  get_EU_rx2 rx2Env State.initial Reachable.start

/-! ## The CFList (C18) -/

/-- For a region with an overlay the uplink channels and the CFList of the built plan
are fixed by the `switch` case: they do not depend on the environment. -/
theorem buildPlan_overlay (env : Env) (r : PbFrequencyPlan) (hr : r ∈ cfListRegions) :
    (buildPlan env r.String).1.UplinkChannels = (buildPlan sampleEnv r.String).1.UplinkChannels ∧
    (buildPlan env r.String).1.CFList = (buildPlan sampleEnv r.String).1.CFList := by
  cases r <;> first
    | (exfalso; revert hr; decide)
    | simp [buildPlan, PbFrequencyPlan.String]

/-- A region without an overlay CFList gets no CFList. -/
theorem buildPlan_no_cflist (env : Env) (r : PbFrequencyPlan) (hr : r ∉ cfListRegions) :
    (buildPlan env r.String).1.CFList = none := by
  cases r <;> first
    | (exfalso; revert hr; decide)
    | simp [buildPlan, PbFrequencyPlan.String]

/-- C18: for every region whose plan carries a CFList (EU_863_870, AS_920_923,
AS_923_925, KR_920_923, RU_864_870) the CFList has five slots, every non-zero slot is
the frequency of a multi-rate uplink channel of the same plan, the non-zero slots are
consecutive entries, in the same order, of the plan's uplink channel list, and only
KR_920_923 has a zero slot: exactly one, in the last position.  The plan of every
other region has no CFList.  The plan meant is the one `Get` builds, which is also
the one stored by `InitializeTables`. -/
theorem cflist_slots (env : Env) (r : PbFrequencyPlan) :
    (r ∈ cfListRegions →
      (∃ slots, (buildPlan env r.String).1.CFList = some slots ∧ slots.length = 5) ∧
      (∀ x ∈ cfListNonZero (buildPlan env r.String).1,
        hasMultiRate (buildPlan env r.String).1 (x : Int) = true) ∧
      ((cfListNonZero (buildPlan env r.String).1).map (fun x => (x : Int)) <:+:
        uplinkFrequencies (buildPlan env r.String).1) ∧
      (r ≠ PbFrequencyPlan.KR_920_923 →
        (buildPlan env r.String).1.CFList = some (cfListNonZero (buildPlan env r.String).1)) ∧
      (r = PbFrequencyPlan.KR_920_923 →
        (buildPlan env r.String).1.CFList =
          some (cfListNonZero (buildPlan env r.String).1 ++ [0]) ∧
        (cfListNonZero (buildPlan env r.String).1).length = 4)) ∧
    (r ∉ cfListRegions → (buildPlan env r.String).1.CFList = none) ∧
    (Get env State.initial.frequencyPlans r.String).1 = (buildPlan env r.String).1 ∧
    storedPlan (InitializeTables env State.initial) r = (buildPlan env r.String).1 := by
  refine ⟨?_, buildPlan_no_cflist env r, by rw [get_initial],
    storedPlan_initializeTables env r⟩
  intro hr
  obtain ⟨hu, hc⟩ := buildPlan_overlay env r hr
  simp only [hasMultiRate, cfListNonZero, uplinkFrequencies, hu, hc]
  cases r <;> first
    | (exfalso; revert hr; decide)
    | decide

/-! ## The data-rate accessors (C16) -/

/-- The scan of the data-rate table finds nothing exactly when no entry is equal to
the data rate. -/
theorem dataRateScan_eq_none (dr : DataRate) (l : List DataRate) (i : Nat) :
    dataRateScan dr l i = none ↔ dr ∉ l := by
  induction l generalizing i with
  | nil => simp [dataRateScan]
  | cons d rest ih =>
    unfold dataRateScan
    by_cases h : d = dr
    · simp [h]
    · have h' : ¬ dr = d := fun e => h e.symm
      simp [h, h', ih]

/-- A result `k` of the scan started at index `i` is the position (shifted by `i`) of
the first entry equal to the data rate. -/
theorem dataRateScan_eq_some (dr : DataRate) (l : List DataRate) (i k : Nat)
    (h : dataRateScan dr l i = some k) :
    i ≤ k ∧ l[k - i]? = some dr ∧ ∀ j : Nat, j < k - i → l[j]? ≠ some dr := by
  induction l generalizing i with
  | nil => simp [dataRateScan] at h
  | cons d0 rest ih =>
    unfold dataRateScan at h
    by_cases hp : d0 = dr
    · simp only [hp, if_true, Option.some.injEq] at h
      subst h
      simp [hp]
    · simp only [hp, if_false] at h
      obtain ⟨h1, h2, h3⟩ := ih (i + 1) h
      have hk : k - i = (k - (i + 1)) + 1 := by omega
      refine ⟨by omega, ?_, ?_⟩
      · rw [hk]; simpa using h2
      · intro j hj
        cases j with
        | zero => simpa using hp
        | succ j =>
          have := h3 j (by omega)
          simpa using this

/-- For a LoRa data rate of the band library with spreading factor 7 to 12, bandwidth
125, 250 or 500 and bit rate 0, the parser reads the rendering of the converted data
rate back, and the value `GetDataRateIndexFor` builds from it is the data rate
itself. -/
theorem descriptor_roundtrip (d : DataRate) (hm : d.Modulation = Modulation.LoRaModulation)
    (hsf : 7 ≤ d.SpreadFactor ∧ d.SpreadFactor ≤ 12)
    (hbw : d.Bandwidth = 125 ∨ d.Bandwidth = 250 ∨ d.Bandwidth = 500)
    (hbr : d.BitRate = 0) :
    (ParseDataRate (ConvertDataRate d).1.String).2 = none ∧
    ({ Modulation := Modulation.LoRaModulation,
       SpreadFactor := wrapInt64 ((ParseDataRate (ConvertDataRate d).1.String).1.SpreadingFactor : Int),
       Bandwidth := wrapInt64 ((ParseDataRate (ConvertDataRate d).1.String).1.Bandwidth : Int),
       BitRate := 0 } : DataRate) = d := by
  obtain ⟨m, sf, bw, br⟩ := d
  simp only at hm hsf hbw hbr
  subst hm hbr
  have hsf' : sf = 7 ∨ sf = 8 ∨ sf = 9 ∨ sf = 10 ∨ sf = 11 ∨ sf = 12 := by omega
  rcases hsf' with h | h | h | h | h | h <;> rcases hbw with h' | h' | h' <;>
    subst h <;> subst h' <;> decide

/-- Amended C16: for every plan returned by `Get` and every valid index `i` of its
data-rate table: if the entry is not a LoRa data rate, `GetDataRateStringForIndex(i)`
fails with an error; if it is a LoRa data rate that the notation names (spreading
factor 7 to 12, bandwidth 125, 250 or 500, bit rate 0), `GetDataRateStringForIndex(i)`
succeeds with a string `str`, and `GetDataRateIndexFor(str)` succeeds and returns the
first index at which the table holds that same entry: an index at most `i`, and `i`
itself when the entry does not occur earlier in the table. -/
theorem dataRate_roundtrip (env : Env) (frequencyPlans : GoMap String FrequencyPlan)
    (region : String) (i : Nat) (d : DataRate)
    (hi : (Get env frequencyPlans region).1.DataRates[i]? = some d) :
    (d.Modulation ≠ Modulation.LoRaModulation →
      ∃ err, (Get env frequencyPlans region).1.GetDataRateStringForIndex (i : Int) =
        GoResult.returned ("", some err)) ∧
    (d.Modulation = Modulation.LoRaModulation →
      7 ≤ d.SpreadFactor ∧ d.SpreadFactor ≤ 12 →
      d.Bandwidth = 125 ∨ d.Bandwidth = 250 ∨ d.Bandwidth = 500 →
      d.BitRate = 0 →
      ∃ str, (Get env frequencyPlans region).1.GetDataRateStringForIndex (i : Int) =
          GoResult.returned (str, none) ∧
        ∃ k : Nat, (Get env frequencyPlans region).1.GetDataRateIndexFor str = ((k : Int), none) ∧
          k ≤ i ∧
          (Get env frequencyPlans region).1.DataRates[k]? = some d ∧
          (∀ j : Nat, j < k → (Get env frequencyPlans region).1.DataRates[j]? ≠ some d) ∧
          ((∀ j : Nat, j < i → (Get env frequencyPlans region).1.DataRates[j]? ≠ some d) →
            k = i)) := by
  generalize (Get env frequencyPlans region).1 = f at hi ⊢
  have hget : (if 0 ≤ (i : Int) then f.DataRates[(i : Int).toNat]? else none) = some d := by
    simp [hi]
  constructor
  · intro hm
    refine ⟨Error.New "ttn/core: FSK can not be converted to a LoRa DataRate", ?_⟩
    simp only [FrequencyPlan.GetDataRateStringForIndex, hget, ConvertDataRate, hm, if_false]
  · intro hm hsf hbw hbr
    obtain ⟨hparse, hkey⟩ := descriptor_roundtrip d hm hsf hbw hbr
    refine ⟨(ConvertDataRate d).1.String, ?_, ?_⟩
    · simp only [FrequencyPlan.GetDataRateStringForIndex, hget, ConvertDataRate, hm, if_true]
    · cases hs : dataRateScan d f.DataRates 0 with
      | none =>
        exact absurd (List.mem_iff_getElem?.2 ⟨i, hi⟩) ((dataRateScan_eq_none _ _ _).1 hs)
      | some k =>
        obtain ⟨_, h2, h3⟩ := dataRateScan_eq_some _ _ _ _ hs
        have h2' : f.DataRates[k]? = some d := by simpa using h2
        have h3' : ∀ j : Nat, j < k → f.DataRates[j]? ≠ some d :=
          fun j hj => h3 j (by simpa using hj)
        have hki : k ≤ i := by
          by_contra hlt
          exact h3' i (by omega) hi
        refine ⟨k, ?_, hki, h2', h3', ?_⟩
        · simp only [FrequencyPlan.GetDataRateIndexFor, hparse, hkey, Band.GetDataRate, hs]
        · intro hfirst
          by_contra hne
          exact hfirst k (by omega) h2'

/-- Witness for the amended C16: data rate 6 (SF7BW250) of the full EU table, in the
plan `Get` builds for EU_863_870. -/
theorem dataRate_roundtrip_witness :
    ∃ str, (Get fskEnv State.initial.frequencyPlans "EU_863_870").1.GetDataRateStringForIndex
        ((6 : Nat) : Int) = GoResult.returned (str, none) ∧
      ∃ k : Nat, (Get fskEnv State.initial.frequencyPlans "EU_863_870").1.GetDataRateIndexFor str
          = ((k : Int), none) ∧ k ≤ 6 ∧
        (Get fskEnv State.initial.frequencyPlans "EU_863_870").1.DataRates[k]? =
          some ⟨Modulation.LoRaModulation, 7, 250, 0⟩ ∧
        (∀ j : Nat, j < k →
          (Get fskEnv State.initial.frequencyPlans "EU_863_870").1.DataRates[j]? ≠
            some ⟨Modulation.LoRaModulation, 7, 250, 0⟩) ∧
        ((∀ j : Nat, j < 6 →
          (Get fskEnv State.initial.frequencyPlans "EU_863_870").1.DataRates[j]? ≠
            some ⟨Modulation.LoRaModulation, 7, 250, 0⟩) → k = 6) :=
  (dataRate_roundtrip fskEnv State.initial.frequencyPlans "EU_863_870" 6
    ⟨Modulation.LoRaModulation, 7, 250, 0⟩ (by decide)).2 rfl (by decide) (by decide) rfl

/-- Counterexample to C16 as stated: with the full EU data-rate table, index 7 of the
plan `Get` builds for EU_863_870 is valid, but its entry is the FSK data rate, and
`GetDataRateStringForIndex(7)` returns an error instead of a string; so the round
trip does not hold "for every valid index". -/
theorem dataRate_roundtrip_counterexample :
    ¬ (∀ (r : PbFrequencyPlan) (i : Nat),
        i < (Get fskEnv State.initial.frequencyPlans r.String).1.DataRates.length →
        ∃ s, (Get fskEnv State.initial.frequencyPlans r.String).1.GetDataRateStringForIndex
            (i : Int) = GoResult.returned (s, none) ∧
          (Get fskEnv State.initial.frequencyPlans r.String).1.GetDataRateIndexFor s =
            ((i : Int), none)) := by
  intro h
  obtain ⟨s, h1, _⟩ := h PbFrequencyPlan.EU_863_870 7 (by decide)
  have h2 : (Get fskEnv State.initial.frequencyPlans
      PbFrequencyPlan.EU_863_870.String).1.GetDataRateStringForIndex ((7 : Nat) : Int) =
      GoResult.returned
        ("", some (Error.New "ttn/core: FSK can not be converted to a LoRa DataRate")) := by
    decide
  rw [h2] at h1
  simp at h1

/-! ## The unchecked index of GetDataRateStringForIndex (C20) -/

/-- C20: `GetDataRateStringForIndex` indexes the data-rate table without a bounds
check.  The call completes (returns a string or an error value) if and only if
`0 <= drIdx < len(DataRates)`; for every index that is negative or at least the
length of the table the slice access is out of range and the call panics at run time
instead of returning an error; on a plan with an empty table this is so for every
index. -/
theorem getDataRateStringForIndex_bounds (f : FrequencyPlan) (drIdx : Int) :
    ((∃ res, f.GetDataRateStringForIndex drIdx = GoResult.returned res) ↔
      (0 ≤ drIdx ∧ drIdx < (f.DataRates.length : Int))) ∧
    (f.GetDataRateStringForIndex drIdx = GoResult.panicked "runtime error: index out of range" ↔
      (drIdx < 0 ∨ (f.DataRates.length : Int) ≤ drIdx)) ∧
    ({ f with DataRates := [] } : FrequencyPlan).GetDataRateStringForIndex drIdx =
      GoResult.panicked "runtime error: index out of range" := by
  have key : (0 ≤ drIdx ∧ drIdx < (f.DataRates.length : Int)) ∨
      ((drIdx < 0 ∨ (f.DataRates.length : Int) ≤ drIdx)) := by omega
  refine ⟨?_, ?_, ?_⟩
  · rcases key with ⟨h0, h1⟩ | hout
    · have hlt : drIdx.toNat < f.DataRates.length := by omega
      have hget : (if 0 ≤ drIdx then f.DataRates[drIdx.toNat]? else none) =
          some (f.DataRates[drIdx.toNat]) := by
        simp [h0, List.getElem?_eq_getElem hlt]
      refine ⟨fun _ => ⟨h0, h1⟩, fun _ => ?_⟩
      simp only [FrequencyPlan.GetDataRateStringForIndex, hget]
      cases (ConvertDataRate f.DataRates[drIdx.toNat]).2 <;> exact ⟨_, rfl⟩
    · have hget : (if 0 ≤ drIdx then f.DataRates[drIdx.toNat]? else none) = none := by
        by_cases h0 : 0 ≤ drIdx
        · have : f.DataRates.length ≤ drIdx.toNat := by omega
          simp [h0, List.getElem?_eq_none this]
        · simp [h0]
      constructor
      · rintro ⟨res, hres⟩
        simp [FrequencyPlan.GetDataRateStringForIndex, hget] at hres
      · intro h; omega
  · rcases key with ⟨h0, h1⟩ | hout
    · have hlt : drIdx.toNat < f.DataRates.length := by omega
      have hget : (if 0 ≤ drIdx then f.DataRates[drIdx.toNat]? else none) =
          some (f.DataRates[drIdx.toNat]) := by
        simp [h0, List.getElem?_eq_getElem hlt]
      constructor
      · intro h
        simp only [FrequencyPlan.GetDataRateStringForIndex, hget] at h
        cases hc : (ConvertDataRate f.DataRates[drIdx.toNat]).2 <;> rw [hc] at h <;> cases h
      · intro h; omega
    · have hget : (if 0 ≤ drIdx then f.DataRates[drIdx.toNat]? else none) = none := by
        by_cases h0 : 0 ≤ drIdx
        · have : f.DataRates.length ≤ drIdx.toNat := by omega
          simp [h0, List.getElem?_eq_none this]
        · simp [h0]
      refine ⟨fun _ => hout, fun _ => ?_⟩
      simp only [FrequencyPlan.GetDataRateStringForIndex, hget]
  · simp [FrequencyPlan.GetDataRateStringForIndex]

end TTNBand
